import Mathlib

/-!
Endless-runner engine of `game.js`.

A shallow embedding of the run-time engine in `src/game.js` (`startGame` and
the closures it creates: `onJump`, `onJumpUp`, `cleanup`, `spawnObstacle`,
`gameLoop`), followed by theorems about it.

Modelling conventions.

* JavaScript numbers are rationals (`ℚ`); the frame counters `gameTime` and
  `spawnTimer`, which only ever hold `0` or a successor, are `ℕ`. The frame
  dynamics (`gameLoop` and what it calls) are embedded with exact arithmetic;
  the statements proved about them are decided by margins far larger than the
  rounding error of binary64 arithmetic. Where a statement is decided at an
  exact edge (the overlap test, the ends of the ranges of a spawned obstacle)
  the source expression is embedded a second time with every operation rounded
  to binary64 by `fl` (round to nearest, ties to even); these definitions carry
  the suffix `D`. NaN, the infinities and the sign of zero are not modelled;
  none of them arises from the finite inputs considered.
* The closure variables of `startGame` become the fields of `State`.
* `Math.random()` is an input: the draws a frame may consume are passed in as
  a `Draws` record, in the order in which the source evaluates them.
* The canvas size (`gW`, `gH`) is an input of every frame, because a `resize`
  event may change it between frames.
* Of the effects on the outside world, the ones the session state machine is
  responsible for are recorded in the state: whether the document key
  listeners are still attached, how often `cleanup` ran, how many death
  sequences were handed to `setTimeout`, and the published distance. Drawing
  and the title / tap-hint styling do not feed back into the state and are
  left out.
-/

namespace Game

/-! ## Tunables (game.js, lines 19-25) -/

def GRAVITY : ℚ := 0.42
def JUMP_FORCE : ℚ := -13.2
def OBSTACLE_SPEED : ℚ := 5.2
def SPEED_RAMP : ℚ := 0.0008
def PLAYER_W : ℚ := 52
def PLAYER_H : ℚ := 64
def GROUND_Y_RATIO : ℚ := 0.78

/-! ## Data model -/

/-- The `player` object of line 42. -/
structure Player where
  x : ℚ
  y : ℚ
  vy : ℚ
  grounded : Bool
deriving DecidableEq

/-- The `type` tag of an obstacle object. -/
inductive ObstacleType where
  | block
  | spire
  | avalanche
deriving DecidableEq

/-- An obstacle object as pushed by `spawnObstacle`. Blocks and spires carry no
`y` / `vy` property in the source; they are created with `falling:false`, the
flag never becomes true again, and `y` / `vy` are only read while it is true,
so the two fields are given the value `0` for them. -/
structure Obstacle where
  type : ObstacleType
  x : ℚ
  w : ℚ
  h : ℚ
  y : ℚ
  vy : ℚ
  falling : Bool
deriving DecidableEq

/-- The closure state of `startGame` (lines 42-49) together with the recorded
effects. -/
structure State where
  player : Player
  obstacles : List Obstacle
  gameOver : Bool
  gameTime : ℕ
  spawnTimer : ℕ
  spawnInterval : ℚ
  jumpPressed : Bool
  deathFrame : Bool
  /-- The document `keydown` / `keyup` listeners are attached
  (lines 68-69, removed by `cleanup`). -/
  keyListeners : Bool
  /-- Number of calls of `cleanup` so far. -/
  cleanupCalls : ℕ
  /-- Number of death sequences scheduled with `setTimeout(…, 900)` so far
  (lines 292-298). -/
  deathTimers : ℕ
  /-- Text last written to the `dist` element (lines 52 and 302). -/
  dist : ℤ
deriving DecidableEq

/-- Event kinds for which `startGame` registers a listener. -/
inductive EventType where
  | keydown
  | keyup
  | pointerdown
  | pointerup
deriving DecidableEq

/-- The part of a DOM event that `onJump` reads. -/
structure Event where
  type : EventType
  key : String
deriving DecidableEq

/-- The values returned by the calls of `Math.random()` that one frame may
make: `roll` picks the shape, `d1`, `d2`, `d3` are the following draws in
evaluation order. -/
structure Draws where
  roll : ℚ
  d1 : ℚ
  d2 : ℚ
  d3 : ℚ
deriving DecidableEq

/-! ## Input (lines 56-76) -/

/-- `onJump(e)`, lines 56-65. -/
def onJump (e : Event) (s : State) : State :=
  if s.gameOver then s
  else if e.type = EventType.keydown ∧ e.key ≠ " " then s
  else if !s.jumpPressed && s.player.grounded then
    { s with
      player := { s.player with vy := JUMP_FORCE, grounded := false }
      jumpPressed := true }
  else s

/-- `onJumpUp()`, line 66. -/
def onJumpUp (s : State) : State :=
  { s with jumpPressed := false }

/-- `cleanup()`, lines 73-76: only the two document listeners are removed. -/
def cleanup (s : State) : State :=
  { s with keyListeners := false, cleanupCalls := s.cleanupCalls + 1 }

/-- Delivery of a DOM event to the listeners registered in lines 68-71: the
key listeners sit on the document and are subject to `cleanup`, the pointer
listeners sit on the canvas and are never removed. -/
def dispatch (e : Event) (s : State) : State :=
  match e.type with
  | EventType.keydown => if s.keyListeners then onJump e s else s
  | EventType.keyup => if s.keyListeners then onJumpUp s else s
  | EventType.pointerdown => onJump e s
  | EventType.pointerup => onJumpUp s

/-- A space key press. -/
def spaceDown : Event := ⟨EventType.keydown, " "⟩

/-- A pointer press on the canvas. -/
def pointerDown : Event := ⟨EventType.pointerdown, ""⟩

/-- A pointer release on the canvas. -/
def pointerUp : Event := ⟨EventType.pointerup, ""⟩

/-! ## Spawning (lines 79-88) -/

/-- `spawnObstacle()`, lines 79-88; `push` appends at the end. -/
def spawnObstacle (gW : ℚ) (r : Draws) (s : State) : State :=
  if r.roll < 0.45 then
    { s with obstacles := s.obstacles ++
        [{ type := ObstacleType.block, x := gW + 40, w := 28 + r.d1 * 18,
           h := 30 + r.d2 * 30, y := 0, vy := 0, falling := false }] }
  else if r.roll < 0.75 then
    { s with obstacles := s.obstacles ++
        [{ type := ObstacleType.spire, x := gW + 40, w := 18,
           h := 55 + r.d1 * 30, y := 0, vy := 0, falling := false }] }
  else
    { s with obstacles := s.obstacles ++
        [{ type := ObstacleType.avalanche, x := gW * 0.5 + r.d1 * gW * 0.35,
           w := 50 + r.d2 * 40, h := 28 + r.d3 * 20, y := -60, vy := 0,
           falling := true }] }

/-! ## Main loop (lines 232-315) -/

/-- The scroll speed of a frame, line 240, from the value `gameTime` has when
the frame starts. -/
def speed (gameTime : ℕ) : ℚ :=
  OBSTACLE_SPEED + gameTime * SPEED_RAMP

/-- Player physics, lines 255-262. -/
def stepPlayer (groundY : ℚ) (p : Player) : Player :=
  let vy := p.vy + GRAVITY
  let y := p.y + vy
  let pBottom := groundY - PLAYER_H
  if y ≥ pBottom then { p with y := pBottom, vy := 0, grounded := true }
  else { p with y := y, vy := vy }

/-- Movement of one obstacle, lines 267-273. -/
def moveObstacle (groundY spd : ℚ) (o : Obstacle) : Obstacle :=
  if o.falling then
    let vy := o.vy + 0.5
    let y := o.y + vy
    if y + o.h ≥ groundY then { o with y := groundY - o.h, falling := false, vy := 0 }
    else { o with y := y, vy := vy }
  else { o with x := o.x - spd }

/-- The removal test of line 274; `o.w||40` replaces a zero width by 40. -/
def offscreen (o : Obstacle) : Bool :=
  decide (o.x + (if o.w = 0 then 40 else o.w) < -80)

/-- Top edge of an obstacle's box, line 278 (`oy`). -/
def boxTop (groundY : ℚ) (o : Obstacle) : ℚ :=
  if o.falling then o.y else groundY - o.h

/-- The overlap test of lines 277-285. -/
def hit (groundY : ℚ) (p : Player) (o : Obstacle) : Bool :=
  let ox := o.x
  let oy := boxTop groundY o
  let px := p.x - PLAYER_W * 0.38
  let py := p.y
  decide (px + PLAYER_W * 0.7 > ox ∧ px + PLAYER_W * 0.12 < ox + o.w ∧
    py + PLAYER_H * 0.88 > oy ∧ py < oy + o.h)

/-- The body of the `if` of lines 287-298: set the flags, call `cleanup`,
schedule the death sequence. -/
def die (s : State) : State :=
  let s1 := cleanup { s with gameOver := true, deathFrame := true }
  { s1 with deathTimers := s1.deathTimers + 1 }

/-- One iteration of the `for` loop of lines 265-300 for the obstacle `o`.
The state carries in `obstacles` the already visited obstacles (those of
higher index) that were kept. -/
def loopBody (groundY spd : ℚ) (o : Obstacle) (s : State) : State :=
  let o1 := moveObstacle groundY spd o
  if offscreen o1 then s
  else
    let s1 := { s with obstacles := o1 :: s.obstacles }
    if hit groundY s.player o1 then die s1 else s1

/-- The `for` loop of lines 265-300. It runs from the last index down to 0,
which is the order in which `List.foldr` visits the elements. -/
def obstacleLoop (groundY spd : ℚ) (s : State) : State :=
  s.obstacles.foldr (loopBody groundY spd) { s with obstacles := [] }

/-- The timer part of the update, lines 246-252. -/
def tick (gW : ℚ) (r : Draws) (s : State) : State :=
  let s1 := { s with gameTime := s.gameTime + 1, spawnTimer := s.spawnTimer + 1 }
  if (s1.spawnTimer : ℚ) ≥ s1.spawnInterval then
    { spawnObstacle gW r s1 with
      spawnTimer := 0
      spawnInterval := max 48 (90 - (s1.gameTime : ℚ) * 0.02) }
  else s1

/-- `gameLoop()`, lines 232-315, as a function of the canvas size and the
random draws of the frame. -/
def gameLoop (gW gH : ℚ) (r : Draws) (s : State) : State :=
  let groundY := gH * GROUND_Y_RATIO
  let spd := speed s.gameTime
  if s.gameOver then s
  else
    let s1 := tick gW r s
    let s2 := { s1 with player := stepPlayer groundY s1.player }
    let s3 := obstacleLoop groundY spd s2
    { s3 with dist := ⌊(s3.gameTime : ℚ) * 0.28⌋ }

/-- The session state set up by `startGame` (lines 42-53 and 318-319) before
its first call of `gameLoop`. -/
def initState (gW gH : ℚ) : State :=
  { player := { x := gW * 0.18, y := gH * GROUND_Y_RATIO - PLAYER_H, vy := 0, grounded := true }
    obstacles := []
    gameOver := false
    gameTime := 0
    spawnTimer := 0
    spawnInterval := 90
    jumpPressed := false
    deathFrame := false
    keyListeners := true
    cleanupCalls := 0
    deathTimers := 0
    dist := 0 }

/-! ## Runs -/

/-- What can happen to a session: a frame, or a call of one of the two input
handlers. -/
inductive Action where
  | frame (gW gH : ℚ) (r : Draws)
  | jump (e : Event)
  | jumpUp

/-- Effect of one action. -/
def step (a : Action) (s : State) : State :=
  match a with
  | Action.frame gW gH r => gameLoop gW gH r s
  | Action.jump e => onJump e s
  | Action.jumpUp => onJumpUp s

/-- Effect of a sequence of actions, first action first. -/
def run (as : List Action) (s : State) : State :=
  as.foldl (fun t a => step a t) s

/-- A run of frames only, on a canvas of fixed size, one `Draws` per frame. -/
def runFrames (gW gH : ℚ) (ds : List Draws) (s : State) : State :=
  ds.foldl (fun t r => gameLoop gW gH r t) s

/-! ## Concrete sessions used below -/

/-- Draws that make a spawn produce the smallest block. -/
def zeroDraws : Draws := ⟨0, 0, 0, 0⟩

/-- Draws that make a spawn produce an avalanche at `x = 0.5 gW + d * 0.35 gW`
of width 50 and height 28. -/
def avalancheDraws (d : ℚ) : Draws := ⟨0.9, d, 0, 0⟩

/-- The draws of the first 338 frames of a session on a 1600 x 600 canvas in
which nobody jumps: the spawn of frame 90 is a block, the spawn of frame 179
an avalanche dropped at `x = 926.6`, every later spawn a block. -/
def pileUpDraws : List Draws :=
  List.replicate 178 zeroDraws ++ [avalancheDraws (633 / 2800)] ++ List.replicate 159 zeroDraws

/-- A session on an 800 x 600 canvas whose player presses the pointer after
216 frames, one frame before the first block arrives, and keeps it pressed. -/
def lateJump : List Action :=
  List.replicate 216 (Action.frame 800 600 zeroDraws) ++
    [Action.jump pointerDown, Action.frame 800 600 zeroDraws]

/-- A session state after the death transition, written out. -/
def deadState : State :=
  { player := { x := 144, y := 404, vy := 0, grounded := true }
    obstacles := [{ type := ObstacleType.block, x := 158, w := 28, h := 30, y := 0, vy := 0,
                    falling := false }]
    gameOver := true
    gameTime := 217
    spawnTimer := 39
    spawnInterval := 86.42
    jumpPressed := false
    deathFrame := true
    keyListeners := false
    cleanupCalls := 1
    deathTimers := 1
    dist := 60 }

/-- A request to jump as the input layer issues it: a space key press or a
pointer press (the two ways in which `onJump` gets past line 58). -/
def isRequest (e : Event) : Prop :=
  e.type = EventType.keydown → e.key = " "

instance (e : Event) : Decidable (isRequest e) := by
  unfold isRequest; infer_instance

/-! ## Invariants and side conditions -/

/-- The spawn interval is at least 48 and at least the value the next spawn
would assign. -/
def IntervalInv (s : State) : Prop :=
  48 ≤ s.spawnInterval ∧ max 48 (90 - (s.gameTime : ℚ) * 0.02) ≤ s.spawnInterval

/-- The character is not below the ground line `groundY`, and stands on it at
rest whenever it is flagged as grounded. -/
def GroundInv (groundY : ℚ) (s : State) : Prop :=
  s.player.y ≤ groundY - 64 ∧
    (s.player.grounded = true → s.player.y = groundY - 64 ∧ s.player.vy = 0)

/-- The frames among the actions are drawn on a canvas of height `gH`. -/
def fixedHeight (gH : ℚ) : Action → Prop
  | Action.frame _ h _ => h = gH
  | Action.jump _ => True
  | Action.jumpUp => True

/-- Every draw lies in `[0, 1)`, as a result of `Math.random()` does. -/
def Draws.valid (r : Draws) : Prop :=
  (0 ≤ r.roll ∧ r.roll < 1) ∧ (0 ≤ r.d1 ∧ r.d1 < 1) ∧ (0 ≤ r.d2 ∧ r.d2 < 1) ∧
    (0 ≤ r.d3 ∧ r.d3 < 1)

/-- A short session on an 800 x 600 canvas: a frame, a jump, a frame, a
release, a frame. -/
def hop : List Action :=
  [Action.frame 800 600 zeroDraws, Action.jump spaceDown, Action.frame 800 600 zeroDraws,
    Action.jumpUp, Action.frame 800 600 zeroDraws]

/-- Scenario A: the initial state of a session on a canvas 800 wide and `gH`
high, with one block of width 30 and height `h` placed at `x = 840`. -/
def scenarioA (gH h : ℚ) : State :=
  { initState 800 gH with
    obstacles := [⟨ObstacleType.block, 840, 30, h, 0, 0, false⟩] }

/-- What holds `k` frames into scenario A, up to the frame before the hit: the
run is in Playing mode, the character stands still, the placed block has
scrolled to `840 - 5.2 k - 0.0004 k (k - 1)`, the first spawn is due in frame
90, and whatever was spawned is still far to the right. -/
def scenarioAInv (gH h : ℚ) (k : ℕ) (s : State) : Prop :=
  s.gameOver = false ∧ s.player = ⟨144, gH * GROUND_Y_RATIO - 64, 0, true⟩ ∧ s.gameTime = k ∧
  (k < 90 → s.spawnTimer = k ∧ s.spawnInterval = 90) ∧
  (90 ≤ k → s.spawnTimer + 90 = k ∧ s.spawnInterval = 88.2) ∧
  ∃ rest, s.obstacles =
      ⟨ObstacleType.block, 840 - 5.2 * (k : ℚ) - 0.0004 * (k : ℚ) * ((k : ℚ) - 1), 30, h, 0, 0,
        false⟩ :: rest ∧
    ∀ o ∈ rest, 880.6 - 5.4 * (k : ℚ) ≤ o.x

/-- An obstacle after `k` Playing frames in which it is kept, the first of
which starts with `gameTime = t0`: frame `j + 1` applies the movement of lines
267-273 with the scroll speed of line 240 at `gameTime = t0 + j`. -/
def moveFrames (groundY : ℚ) (t0 : ℕ) : ℕ → Obstacle → Obstacle
  | 0, o => o
  | k + 1, o => moveObstacle groundY (speed (t0 + k)) (moveFrames groundY t0 k o)

/-! ## Binary64 rounding and the source expressions evaluated with it -/

/-- `⌊log₂ n⌋` by repeated halving, at most `fuel` times. -/
def log2Fuel : ℕ → ℕ → ℕ
  | 0, _ => 0
  | f + 1, n => if n < 2 then 0 else log2Fuel f (n / 2) + 1

/-- `⌊log₂ n⌋` for `n ≥ 1`. -/
def natLog2 (n : ℕ) : ℕ := log2Fuel n n

/-- The binade of a nonzero rational: the `e` with `2 ^ e ≤ |q| < 2 ^ (e + 1)`. -/
def binade (q : ℚ) : ℤ :=
  if q.den * 2 ^ natLog2 q.num.natAbs ≤ q.num.natAbs * 2 ^ natLog2 q.den then
    (natLog2 q.num.natAbs : ℤ) - (natLog2 q.den : ℤ)
  else (natLog2 q.num.natAbs : ℤ) - (natLog2 q.den : ℤ) - 1

/-- Rounding to the nearest integer, ties to the even one. -/
def roundEven (y : ℚ) : ℤ :=
  if y - ⌊y⌋ < 1 / 2 then ⌊y⌋
  else if 1 / 2 < y - ⌊y⌋ then ⌊y⌋ + 1
  else if ⌊y⌋ % 2 = 0 then ⌊y⌋ else ⌊y⌋ + 1

/-- Number of fractional bits of the binary64 grid around `q`. -/
def gridBits (q : ℚ) : ℤ := min (52 - binade q) 1074

/-- Rounding of a rational to binary64, round-to-nearest, ties-to-even, the
subnormal range included. Beyond the largest finite binary64 number, where the
hardware returns an infinity, the function keeps rounding on the grid of the
binade; no expression below gets there. -/
def fl (q : ℚ) : ℚ := (roundEven (q * 2 ^ gridBits q) : ℚ) / 2 ^ gridBits q

/-- Top edge of an obstacle's box, line 278 (`oy`), in binary64. -/
def boxTopD (groundY : ℚ) (o : Obstacle) : ℚ :=
  if o.falling then o.y else fl (groundY - o.h)

/-- Right edge of the shrunk character box as lines 279 and 282 compute it. -/
def hitboxRight (x : ℚ) : ℚ :=
  fl (fl (x - fl (PLAYER_W * fl 0.38)) + fl (PLAYER_W * fl 0.7))

/-- Left edge of the shrunk character box as lines 279 and 283 compute it. -/
def hitboxLeft (x : ℚ) : ℚ :=
  fl (fl (x - fl (PLAYER_W * fl 0.38)) + fl (PLAYER_W * fl 0.12))

/-- Bottom edge of the shrunk character box as line 284 computes it. -/
def hitboxBottom (y : ℚ) : ℚ :=
  fl (y + fl (PLAYER_H * fl 0.88))

/-- The overlap test of lines 277-285 in binary64 arithmetic. -/
def hitD (groundY : ℚ) (p : Player) (o : Obstacle) : Bool :=
  let ox := o.x
  let oy := boxTopD groundY o
  let py := p.y
  decide (hitboxRight p.x > ox ∧ hitboxLeft p.x < fl (ox + o.w) ∧
    hitboxBottom py > oy ∧ py < fl (oy + o.h))

/-- `spawnObstacle()`, lines 79-88, with every arithmetic operation rounded to
binary64 as the source performs it. -/
def spawnObstacleD (gW : ℚ) (r : Draws) (s : State) : State :=
  if r.roll < fl 0.45 then
    { s with obstacles := s.obstacles ++
        [{ type := ObstacleType.block, x := fl (gW + 40), w := fl (28 + fl (r.d1 * 18)),
           h := fl (30 + fl (r.d2 * 30)), y := 0, vy := 0, falling := false }] }
  else if r.roll < fl 0.75 then
    { s with obstacles := s.obstacles ++
        [{ type := ObstacleType.spire, x := fl (gW + 40), w := 18,
           h := fl (55 + fl (r.d1 * 30)), y := 0, vy := 0, falling := false }] }
  else
    { s with obstacles := s.obstacles ++
        [{ type := ObstacleType.avalanche,
           x := fl (fl (gW * fl 0.5) + fl (fl (r.d1 * gW) * fl 0.35)),
           w := fl (50 + fl (r.d2 * 40)), h := fl (28 + fl (r.d3 * 20)), y := -60, vy := 0,
           falling := true }] }

/-- The draws are binary64 numbers. -/
def Draws.isDouble (r : Draws) : Prop :=
  fl r.roll = r.roll ∧ fl r.d1 = r.d1 ∧ fl r.d2 = r.d2 ∧ fl r.d3 = r.d3

instance (r : Draws) : Decidable r.isDouble := by
  unfold Draws.isDouble; infer_instance

/-- A binary64 number just below 1, `1 - 2 ^ (-52)`. -/
def belowOne : ℚ := 1 - 1 / 2 ^ 52

/-- Draws as close to 1 as binary64 allows, with the roll of a block. -/
def edgeDraws : Draws := ⟨0, belowOne, belowOne, belowOne⟩

end Game

namespace Game

/-! ## The death transition -/

/-- C1 (the code departs from the claim): on a 1600 x 600 canvas, with the
block of frame 90 and an avalanche that frame 179 drops right next to it,
frame 338 of a session without any jump finds both obstacles inside the
character's hitbox. Up to frame 337 the run is in Playing mode and no death
sequence is scheduled; frame 338 performs the death transition twice: `cleanup`
runs twice and two death sequences are scheduled. -/
theorem death_transition_twice_in_frame :
    (runFrames 1600 600 (pileUpDraws.take 337) (initState 1600 600)).gameOver = false ∧
    (runFrames 1600 600 (pileUpDraws.take 337) (initState 1600 600)).deathTimers = 0 ∧
    pileUpDraws.length = 338 ∧
    (runFrames 1600 600 pileUpDraws (initState 1600 600)).gameOver = true ∧
    (runFrames 1600 600 pileUpDraws (initState 1600 600)).cleanupCalls = 2 ∧
    (runFrames 1600 600 pileUpDraws (initState 1600 600)).deathTimers = 2 := by
  decide!

/-- C2: once `gameOver` is set, a frame step and a call of `onJump` return the
state as it is: character, obstacles, `gameTime`, `spawnTimer` and
`spawnInterval` are unchanged, `gameOver` stays true and so does `deathFrame`
when it was. -/
theorem dead_state_frozen (s : State) (h : s.gameOver = true) (gW gH : ℚ) (r : Draws)
    (e : Event) :
    gameLoop gW gH r s = s ∧ onJump e s = s ∧
    (gameLoop gW gH r s).player = s.player ∧ (onJump e s).player = s.player ∧
    (gameLoop gW gH r s).obstacles = s.obstacles ∧ (onJump e s).obstacles = s.obstacles ∧
    (gameLoop gW gH r s).gameTime = s.gameTime ∧ (onJump e s).gameTime = s.gameTime ∧
    (gameLoop gW gH r s).spawnTimer = s.spawnTimer ∧ (onJump e s).spawnTimer = s.spawnTimer ∧
    (gameLoop gW gH r s).spawnInterval = s.spawnInterval ∧
    (onJump e s).spawnInterval = s.spawnInterval ∧
    (gameLoop gW gH r s).gameOver = true ∧ (onJump e s).gameOver = true ∧
    (s.deathFrame = true →
      (gameLoop gW gH r s).deathFrame = true ∧ (onJump e s).deathFrame = true) := by
  have hg : gameLoop gW gH r s = s := by simp [gameLoop, h]
  have hj : onJump e s = s := by simp [onJump, h]
  rw [hg, hj]
  simp [h]

/-- Witness of C2 at `deadState`. -/
theorem dead_state_frozen_witness :
    deadState.gameOver = true ∧ deadState.deathFrame = true ∧
    gameLoop 800 600 zeroDraws deadState = deadState ∧ onJump spaceDown deadState = deadState :=
  ⟨rfl, rfl, (dead_state_frozen deadState rfl 800 600 zeroDraws spaceDown).1,
    (dead_state_frozen deadState rfl 800 600 zeroDraws spaceDown).2.1⟩

/-! ## The input gate -/

/-- C3: while `gameOver` is false, a jump request changes the state exactly when
the character is grounded and no jump is pending; it then sets `vy` to `-13.2`,
clears `grounded` and sets `jumpPressed`. A pending jump blocks the request
whatever `grounded` is, and a second request right after a first one changes
nothing. -/
theorem onJump_edge_trigger (s : State) (e e2 : Event) (hs : s.gameOver = false)
    (he : isRequest e) (he2 : isRequest e2) :
    (onJump e s ≠ s ↔ (s.player.grounded = true ∧ s.jumpPressed = false)) ∧
    ((s.player.grounded = true ∧ s.jumpPressed = false) →
      onJump e s = { s with
        player := { s.player with vy := -13.2, grounded := false }
        jumpPressed := true }) ∧
    (s.jumpPressed = true → onJump e s = s) ∧
    onJump e2 (onJump e s) = onJump e s := by
  have hk : ∀ e1 : Event, isRequest e1 → ¬ (e1.type = EventType.keydown ∧ e1.key ≠ " ") :=
    fun e1 h1 hc => hc.2 (h1 hc.1)
  have hke := hk e he
  have hke2 := hk e2 he2
  obtain ⟨p, obs, go, gt, st, si, jp, df, kl, cc, dt, di⟩ := s
  obtain ⟨px, py, pvy, pg⟩ := p
  simp only at hs
  subst hs
  cases jp <;> cases pg <;> simp [onJump, hke, hke2, JUMP_FORCE]

/-- Witness of C3 at the initial state of an 800 x 600 session, with a space
key press followed by a pointer press. -/
theorem onJump_edge_trigger_witness :
    (initState 800 600).gameOver = false ∧ isRequest spaceDown ∧ isRequest pointerDown ∧
    onJump spaceDown (initState 800 600) ≠ initState 800 600 ∧
    onJump pointerDown (onJump spaceDown (initState 800 600)) =
      onJump spaceDown (initState 800 600) :=
  ⟨rfl, by decide, by decide,
    (onJump_edge_trigger (initState 800 600) spaceDown pointerDown rfl (by decide)
      (by decide)).1.mpr ⟨rfl, rfl⟩,
    (onJump_edge_trigger (initState 800 600) spaceDown pointerDown rfl (by decide)
      (by decide)).2.2.2⟩

/-- C4 (the code departs from the claim): in the session `lateJump` the pointer
is pressed one frame before the first block arrives and the character dies with
the pointer still down. `cleanup` has removed the key listeners, but a pointer
release still reaches `onJumpUp`, which clears `jumpPressed` although `gameOver`
is set; `onJump` on the same state changes nothing. -/
theorem onJumpUp_after_death :
    (run lateJump (initState 800 600)).gameOver = true ∧
    (run lateJump (initState 800 600)).keyListeners = false ∧
    (run lateJump (initState 800 600)).jumpPressed = true ∧
    dispatch pointerUp (run lateJump (initState 800 600)) =
      onJumpUp (run lateJump (initState 800 600)) ∧
    (onJumpUp (run lateJump (initState 800 600))).jumpPressed = false ∧
    onJumpUp (run lateJump (initState 800 600)) ≠ run lateJump (initState 800 600) ∧
    onJump pointerDown (run lateJump (initState 800 600)) = run lateJump (initState 800 600) := by
  decide!

/-! ## What a frame does to the fields outside the obstacle list -/

theorem loopBody_fields (g v : ℚ) (o : Obstacle) (s : State) :
    (loopBody g v o s).player = s.player ∧ (loopBody g v o s).gameTime = s.gameTime ∧
    (loopBody g v o s).spawnTimer = s.spawnTimer ∧
    (loopBody g v o s).spawnInterval = s.spawnInterval ∧
    (loopBody g v o s).jumpPressed = s.jumpPressed := by
  simp only [loopBody, die, cleanup]
  split_ifs <;> simp

theorem foldr_loopBody_fields (g v : ℚ) (l : List Obstacle) (s : State) :
    (l.foldr (loopBody g v) s).player = s.player ∧
    (l.foldr (loopBody g v) s).gameTime = s.gameTime ∧
    (l.foldr (loopBody g v) s).spawnTimer = s.spawnTimer ∧
    (l.foldr (loopBody g v) s).spawnInterval = s.spawnInterval ∧
    (l.foldr (loopBody g v) s).jumpPressed = s.jumpPressed := by
  induction l with
  | nil => simp
  | cons o l ih =>
    obtain ⟨h1, h2, h3, h4, h5⟩ := ih
    obtain ⟨k1, k2, k3, k4, k5⟩ := loopBody_fields g v o (l.foldr (loopBody g v) s)
    simp only [List.foldr_cons]
    exact ⟨k1.trans h1, k2.trans h2, k3.trans h3, k4.trans h4, k5.trans h5⟩

theorem spawnObstacle_fields (gW : ℚ) (r : Draws) (s : State) :
    (spawnObstacle gW r s).player = s.player ∧ (spawnObstacle gW r s).gameTime = s.gameTime ∧
    (spawnObstacle gW r s).gameOver = s.gameOver ∧
    (spawnObstacle gW r s).jumpPressed = s.jumpPressed := by
  simp only [spawnObstacle]
  split_ifs <;> simp

theorem tick_fields (gW : ℚ) (r : Draws) (s : State) :
    (tick gW r s).player = s.player ∧ (tick gW r s).gameTime = s.gameTime + 1 ∧
    (tick gW r s).gameOver = s.gameOver ∧ (tick gW r s).jumpPressed = s.jumpPressed := by
  simp only [tick]
  split_ifs
  · obtain ⟨h1, h2, h3, h4⟩ := spawnObstacle_fields gW r
      { s with gameTime := s.gameTime + 1, spawnTimer := s.spawnTimer + 1 }
    exact ⟨h1, h2, h3, h4⟩
  · simp

theorem tick_spawnInterval (gW : ℚ) (r : Draws) (s : State) :
    (tick gW r s).spawnInterval =
      if ((s.spawnTimer + 1 : ℕ) : ℚ) ≥ s.spawnInterval
      then max 48 (90 - ((s.gameTime + 1 : ℕ) : ℚ) * 0.02) else s.spawnInterval := by
  simp only [tick]
  split_ifs <;> simp_all

/-- A frame in Playing mode: the character is advanced by `stepPlayer`, the
counters by `tick`; the obstacle loop touches neither. -/
theorem gameLoop_alive (gW gH : ℚ) (r : Draws) (s : State) (h : s.gameOver = false) :
    (gameLoop gW gH r s).player = stepPlayer (gH * GROUND_Y_RATIO) s.player ∧
    (gameLoop gW gH r s).gameTime = s.gameTime + 1 ∧
    (gameLoop gW gH r s).spawnTimer = (tick gW r s).spawnTimer ∧
    (gameLoop gW gH r s).spawnInterval = (tick gW r s).spawnInterval ∧
    (gameLoop gW gH r s).jumpPressed = s.jumpPressed := by
  obtain ⟨t1, t2, -, t4⟩ := tick_fields gW r s
  simp only [gameLoop, h, Bool.false_eq_true, if_false, obstacleLoop]
  obtain ⟨h1, h2, h3, h4, h5⟩ := foldr_loopBody_fields (gH * GROUND_Y_RATIO) (speed s.gameTime)
    (tick gW r s).obstacles
    { tick gW r s with
      player := stepPlayer (gH * GROUND_Y_RATIO) (tick gW r s).player, obstacles := [] }
  simp only at h1 h2 h3 h4 h5
  refine ⟨?_, ?_, ?_, ?_, ?_⟩
  · rw [h1, t1]
  · rw [h2, t2]
  · rw [h3]
  · rw [h4]
  · rw [h5, t4]

theorem gameLoop_dead (gW gH : ℚ) (r : Draws) (s : State) (h : s.gameOver = true) :
    gameLoop gW gH r s = s := by
  simp [gameLoop, h]

/-! ## Difficulty ramp -/

theorem intervalInv_init (gW gH : ℚ) : IntervalInv (initState gW gH) := by
  simp only [IntervalInv, initState]
  norm_num

theorem gameLoop_interval (gW gH : ℚ) (r : Draws) (s : State) (hi : IntervalInv s) :
    (gameLoop gW gH r s).spawnInterval ≤ s.spawnInterval ∧
    IntervalInv (gameLoop gW gH r s) := by
  cases hg : s.gameOver with
  | true => rw [gameLoop_dead gW gH r s hg]; exact ⟨le_refl _, hi⟩
  | false =>
    obtain ⟨-, h2, -, h4, -⟩ := gameLoop_alive gW gH r s hg
    obtain ⟨i1, i2⟩ := hi
    have hmono : max 48 (90 - ((s.gameTime + 1 : ℕ) : ℚ) * 0.02) ≤
        max 48 (90 - (s.gameTime : ℚ) * 0.02) := by
      apply max_le_max (le_refl _)
      push_cast
      linarith
    unfold IntervalInv
    rw [h4, h2, tick_spawnInterval]
    split_ifs
    · exact ⟨hmono.trans i2, le_max_left _ _, le_refl _⟩
    · exact ⟨le_refl _, i1, hmono.trans i2⟩

theorem step_intervalInv (a : Action) (s : State) (hi : IntervalInv s) :
    IntervalInv (step a s) := by
  cases a with
  | frame gW gH r => exact (gameLoop_interval gW gH r s hi).2
  | jump e =>
    have h : (onJump e s).spawnInterval = s.spawnInterval ∧ (onJump e s).gameTime = s.gameTime := by
      unfold onJump; split_ifs <;> simp
    simp only [step, IntervalInv, h.1, h.2]; exact hi
  | jumpUp => exact hi

theorem run_append_one (as : List Action) (a : Action) (s : State) :
    run (as ++ [a]) s = step a (run as s) := by
  simp [run, List.foldl_append]

theorem run_intervalInv (as : List Action) (s : State) (hi : IntervalInv s) :
    IntervalInv (run as s) := by
  induction as using List.reverseRecOn with
  | nil => exact hi
  | append_singleton as a ih => rw [run_append_one]; exact step_intervalInv a _ ih

/-- C5: in every state reached from the initial state by frames and input
calls, a further frame step leaves `spawnInterval` at or below its previous
value, and at or above 48. -/
theorem spawnInterval_nonincreasing (gW gH : ℚ) (as : List Action) (gW2 gH2 : ℚ) (r : Draws) :
    (initState gW gH).spawnInterval = 90 ∧ (initState gW gH).gameTime = 0 ∧
    (gameLoop gW2 gH2 r (run as (initState gW gH))).spawnInterval ≤
      (run as (initState gW gH)).spawnInterval ∧
    48 ≤ (gameLoop gW2 gH2 r (run as (initState gW gH))).spawnInterval := by
  have hi := run_intervalInv as (initState gW gH) (intervalInv_init gW gH)
  obtain ⟨h1, h2⟩ := gameLoop_interval gW2 gH2 r _ hi
  exact ⟨rfl, rfl, h1, h2.1⟩

/-- C6: the scroll speed of a frame is `5.2 + 0.0008 * gameTime`; it is monotone
in the frame count, strictly so, and never below 5.2. A grounded obstacle is
moved left by exactly this amount, taken at the `gameTime` the frame starts
with. -/
theorem speed_ramp (t1 t2 : ℕ) (g : ℚ) (o : Obstacle) :
    speed t1 = 5.2 + 0.0008 * (t1 : ℚ) ∧
    (t1 ≤ t2 → speed t1 ≤ speed t2) ∧
    (t1 < t2 → speed t1 < speed t2) ∧
    5.2 ≤ speed t1 ∧
    (o.falling = false →
      (moveObstacle g (speed t1) o).x = o.x - (5.2 + 0.0008 * (t1 : ℚ))) := by
  have hs : ∀ t : ℕ, speed t = 5.2 + 0.0008 * (t : ℚ) := by
    intro t; simp only [speed, OBSTACLE_SPEED, SPEED_RAMP]; ring
  refine ⟨hs t1, ?_, ?_, ?_, ?_⟩
  · intro h
    have : (t1 : ℚ) ≤ t2 := by exact_mod_cast h
    rw [hs, hs]; linarith
  · intro h
    have : (t1 : ℚ) < t2 := by exact_mod_cast h
    rw [hs, hs]; linarith
  · have : (0 : ℚ) ≤ t1 := Nat.cast_nonneg t1
    rw [hs]; linarith
  · intro h
    simp [moveObstacle, h, hs]

/-- Witness of C6 at frames 0 and 100, with a block at `x = 840`. -/
theorem speed_ramp_witness :
    speed 0 < speed 100 ∧
    (moveObstacle 468 (speed 100)
      ⟨ObstacleType.block, 840, 30, 40, 0, 0, false⟩).x = 840 - (5.2 + 0.0008 * ((100 : ℕ) : ℚ)) :=
  ⟨(speed_ramp 0 100 468 ⟨ObstacleType.block, 840, 30, 40, 0, 0, false⟩).2.2.1 (by decide),
    (speed_ramp 100 0 468 ⟨ObstacleType.block, 840, 30, 40, 0, 0, false⟩).2.2.2.2 rfl⟩

/-! ## The ground line -/

theorem stepPlayer_ground (g : ℚ) (p : Player)
    (h2 : p.grounded = true → p.y = g - 64 ∧ p.vy = 0) :
    (stepPlayer g p).y ≤ g - 64 ∧
    ((stepPlayer g p).grounded = true → (stepPlayer g p).y = g - 64 ∧ (stepPlayer g p).vy = 0) := by
  simp only [stepPlayer, PLAYER_H, GRAVITY]
  split_ifs with hc
  · simp
  · simp only [not_le, ge_iff_le] at hc
    refine ⟨le_of_lt hc, fun hg => ?_⟩
    obtain ⟨e1, e2⟩ := h2 hg
    rw [e1, e2] at hc
    norm_num at hc

theorem step_groundInv (gH : ℚ) (a : Action) (s : State) (ha : fixedHeight gH a)
    (hi : GroundInv (gH * GROUND_Y_RATIO) s) : GroundInv (gH * GROUND_Y_RATIO) (step a s) := by
  cases a with
  | frame gW h r =>
    simp only [fixedHeight] at ha
    subst ha
    cases hg : s.gameOver with
    | true => simp only [step]; rw [gameLoop_dead gW h r s hg]; exact hi
    | false =>
      obtain ⟨hp, -⟩ := gameLoop_alive gW h r s hg
      simp only [step, GroundInv, hp]
      exact stepPlayer_ground _ _ hi.2
  | jump e =>
    simp only [step, GroundInv, onJump]
    split_ifs
    · exact hi
    · exact hi
    · exact ⟨hi.1, by simp⟩
    · exact hi
  | jumpUp => exact hi

theorem run_groundInv (gH : ℚ) (as : List Action) (s : State) (ha : ∀ a ∈ as, fixedHeight gH a)
    (hi : GroundInv (gH * GROUND_Y_RATIO) s) : GroundInv (gH * GROUND_Y_RATIO) (run as s) := by
  induction as using List.reverseRecOn with
  | nil => exact hi
  | append_singleton as a ih =>
    rw [run_append_one]
    exact step_groundInv gH a _ (ha a (by simp)) (ih (fun b hb => ha b (by simp [hb])))

/-- C7: on a canvas of fixed height `gH`, with ground line `gH * 0.78`, every
state reached from the initial state by frames, `onJump` calls and `onJumpUp`
calls has `player.y ≤ groundY - 64`, and `player.y = groundY - 64` with
`player.vy = 0` whenever `grounded` is set. -/
theorem player_never_below_ground (gW gH : ℚ) (as : List Action)
    (ha : ∀ a ∈ as, fixedHeight gH a) :
    (run as (initState gW gH)).player.y ≤ gH * 0.78 - 64 ∧
    ((run as (initState gW gH)).player.grounded = true →
      (run as (initState gW gH)).player.y = gH * 0.78 - 64 ∧
      (run as (initState gW gH)).player.vy = 0) := by
  have h0 : GroundInv (gH * GROUND_Y_RATIO) (initState gW gH) := by
    simp [GroundInv, initState, PLAYER_H]
  have h := run_groundInv gH as (initState gW gH) ha h0
  simp only [GroundInv, GROUND_Y_RATIO] at h
  exact h

/-- Witness of C7 on the session `hop`, which ends in the air. -/
theorem player_never_below_ground_witness :
    (∀ a ∈ hop, fixedHeight 600 a) ∧
    (run hop (initState 800 600)).player.grounded = false ∧
    (run hop (initState 800 600)).player.y ≤ 600 * 0.78 - 64 :=
  ⟨by simp [hop, fixedHeight], by decide!,
    (player_never_below_ground 800 600 hop (by simp [hop, fixedHeight])).1⟩

/-! ## The obstacle loop -/

/-- When no moved obstacle overlaps the character, the loop only moves the
obstacles and drops those that left the screen. -/
theorem foldr_loopBody_no_hit (g v : ℚ) (l : List Obstacle) (s : State)
    (hn : ∀ o ∈ l, hit g s.player (moveObstacle g v o) = false) :
    l.foldr (loopBody g v) s =
      { s with obstacles :=
          (l.map (moveObstacle g v)).filter (fun o => !offscreen o) ++ s.obstacles } := by
  induction l with
  | nil => simp
  | cons o l ih =>
    have ih1 := ih (fun a ha => hn a (List.mem_cons_of_mem _ ha))
    have ho := hn o (List.mem_cons_self _ _)
    simp only [List.foldr_cons, ih1, loopBody]
    by_cases hoff : offscreen (moveObstacle g v o) = true
    · simp [hoff]
    · simp [hoff, ho]

/-- A moved obstacle that stays on screen and overlaps the character ends the
run, wherever it sits in the list. -/
theorem foldr_loopBody_gameOver (g v : ℚ) (l : List Obstacle) (s : State)
    (hh : ∃ o ∈ l, offscreen (moveObstacle g v o) = false ∧
      hit g s.player (moveObstacle g v o) = true) :
    (l.foldr (loopBody g v) s).gameOver = true := by
  induction l with
  | nil => obtain ⟨o, ho, -⟩ := hh; simp at ho
  | cons a l ih =>
    obtain ⟨o, ho, h1, h2⟩ := hh
    have hp := (foldr_loopBody_fields g v l s).1
    simp only [List.foldr_cons, loopBody]
    rcases List.mem_cons.mp ho with rfl | hmem
    · simp [h1, hp, h2, die, cleanup]
    · have ih1 := ih ⟨o, hmem, h1, h2⟩
      split_ifs
      · exact ih1
      · simp [die, cleanup]
      · exact ih1

theorem gameLoop_no_hit (gW gH : ℚ) (r : Draws) (s : State) (h : s.gameOver = false)
    (hn : ∀ o ∈ (tick gW r s).obstacles,
      hit (gH * GROUND_Y_RATIO) (stepPlayer (gH * GROUND_Y_RATIO) s.player)
        (moveObstacle (gH * GROUND_Y_RATIO) (speed s.gameTime) o) = false) :
    gameLoop gW gH r s =
      { tick gW r s with
        player := stepPlayer (gH * GROUND_Y_RATIO) s.player
        obstacles := ((tick gW r s).obstacles.map
          (moveObstacle (gH * GROUND_Y_RATIO) (speed s.gameTime))).filter (fun o => !offscreen o)
        dist := ⌊((s.gameTime + 1 : ℕ) : ℚ) * 0.28⌋ } := by
  obtain ⟨t1, t2, -, -⟩ := tick_fields gW r s
  simp only [gameLoop, h, Bool.false_eq_true, if_false, obstacleLoop]
  rw [foldr_loopBody_no_hit]
  · simp [t1, t2]
  · simpa [t1] using hn

theorem gameLoop_hit (gW gH : ℚ) (r : Draws) (s : State) (h : s.gameOver = false)
    (hh : ∃ o ∈ (tick gW r s).obstacles,
      offscreen (moveObstacle (gH * GROUND_Y_RATIO) (speed s.gameTime) o) = false ∧
      hit (gH * GROUND_Y_RATIO) (stepPlayer (gH * GROUND_Y_RATIO) s.player)
        (moveObstacle (gH * GROUND_Y_RATIO) (speed s.gameTime) o) = true) :
    (gameLoop gW gH r s).gameOver = true := by
  obtain ⟨t1, -, -, -⟩ := tick_fields gW r s
  simp only [gameLoop, h, Bool.false_eq_true, if_false, obstacleLoop]
  apply foldr_loopBody_gameOver
  simpa [t1] using hh

theorem runFrames_append_one (gW gH : ℚ) (ds : List Draws) (r : Draws) (s : State) :
    runFrames gW gH (ds ++ [r]) s = gameLoop gW gH r (runFrames gW gH ds s) := by
  simp [runFrames, List.foldl_append]

/-! ## Scenario A: a block scrolling towards a standing character -/

theorem stepPlayer_standing (g x : ℚ) :
    stepPlayer g ⟨x, g - 64, 0, true⟩ = ⟨x, g - 64, 0, true⟩ := by
  norm_num [stepPlayer, GRAVITY, PLAYER_H]

theorem moveObstacle_x (g v : ℚ) (o : Obstacle) :
    (moveObstacle g v o).x = if o.falling = true then o.x else o.x - v := by
  simp only [moveObstacle]
  split_ifs <;> rfl

theorem hit_false_of_right (g : ℚ) (p : Player) (o : Obstacle) (h : p.x + 16.64 ≤ o.x) :
    hit g p o = false := by
  simp only [hit, PLAYER_W, decide_eq_false_iff_not, not_and]
  intro h1
  exfalso
  linarith

/-- What `spawnObstacle` appends when the draws are valid. -/
theorem spawnObstacle_obstacles (gW : ℚ) (r : Draws) (s : State) (hr : r.valid) (hW : 0 ≤ gW) :
    ∃ o, (spawnObstacle gW r s).obstacles = s.obstacles ++ [o] ∧ gW * 0.5 ≤ o.x ∧
      (o.falling = false → o.x = gW + 40) := by
  obtain ⟨-, ⟨h1, -⟩, -, -⟩ := hr
  simp only [spawnObstacle]
  split_ifs
  · exact ⟨_, rfl, by simp only; linarith, fun _ => rfl⟩
  · exact ⟨_, rfl, by simp only; linarith, fun _ => rfl⟩
  · refine ⟨_, rfl, ?_, fun hf => by simp at hf⟩
    simp only
    have : 0 ≤ r.d1 * gW * 0.35 := by positivity
    linarith

theorem tick_eq (gW : ℚ) (r : Draws) (s : State) :
    tick gW r s =
      if ((s.spawnTimer + 1 : ℕ) : ℚ) ≥ s.spawnInterval then
        { s with
          gameTime := s.gameTime + 1
          spawnTimer := 0
          spawnInterval := max 48 (90 - ((s.gameTime + 1 : ℕ) : ℚ) * 0.02)
          obstacles := (spawnObstacle gW r s).obstacles }
      else { s with gameTime := s.gameTime + 1, spawnTimer := s.spawnTimer + 1 } := by
  simp only [tick, spawnObstacle]
  split_ifs <;> rfl


/-- One frame of scenario A before the hit: the invariant moves from `k` to
`k + 1`. -/
theorem scenarioA_step (gH h : ℚ) (k : ℕ) (r : Draws) (s : State) (hk : k < 129)
    (hr : r.valid) (hi : scenarioAInv gH h k s) :
    scenarioAInv gH h (k + 1) (gameLoop 800 gH r s) := by
  obtain ⟨hgo, hp, hgt, hlt, hge, rest, hobs, hrest⟩ := hi
  have hkq : (k : ℚ) ≤ 128 := by exact_mod_cast Nat.lt_succ_iff.mp hk
  have hk0 : (0 : ℚ) ≤ k := Nat.cast_nonneg k
  have hv : speed s.gameTime = 5.2 + 0.0008 * (k : ℚ) := by
    rw [hgt]; simp only [speed, OBSTACLE_SPEED, SPEED_RAMP]; ring
  have hstand : stepPlayer (gH * GROUND_Y_RATIO) s.player = s.player := by
    rw [hp]; exact stepPlayer_standing _ _
  -- the obstacle list after the timer update
  have htick : ∃ extra, (tick 800 r s).obstacles = s.obstacles ++ extra ∧
      (∀ o ∈ extra, k = 89 ∧ 400 ≤ o.x ∧ (o.falling = false → o.x = 840)) ∧
      (tick 800 r s).gameOver = false ∧
      (k + 1 < 90 → (tick 800 r s).spawnTimer = k + 1 ∧ (tick 800 r s).spawnInterval = 90) ∧
      (90 ≤ k + 1 →
        (tick 800 r s).spawnTimer + 90 = k + 1 ∧ (tick 800 r s).spawnInterval = 88.2) := by
    rw [tick_eq]
    rcases Nat.lt_or_ge k 90 with hlt90 | hge90
    · obtain ⟨e1, e2⟩ := hlt hlt90
      rcases Nat.lt_or_ge k 89 with hlt89 | hge89
      · have : ¬ (((s.spawnTimer + 1 : ℕ) : ℚ) ≥ s.spawnInterval) := by
          rw [e1, e2]; push_cast
          have : (k : ℚ) < 89 := by exact_mod_cast hlt89
          linarith
        rw [if_neg this]
        refine ⟨[], by simp, by simp, hgo, fun _ => ⟨by simp [e1], e2⟩, fun h9 => by omega⟩
      · have hk89 : k = 89 := by omega
        have : ((s.spawnTimer + 1 : ℕ) : ℚ) ≥ s.spawnInterval := by
          rw [e1, e2, hk89]; norm_num
        rw [if_pos this]
        obtain ⟨o, ho, hx, hf⟩ := spawnObstacle_obstacles 800 r s hr (by norm_num)
        refine ⟨[o], ho, ?_, hgo, fun h9 => by omega, fun _ => ⟨by simp [hk89], ?_⟩⟩
        · intro a ha
          rw [List.mem_singleton] at ha
          subst ha
          exact ⟨hk89, by linarith, fun hfa => by rw [hf hfa]; norm_num⟩
        · simp only [hgt, hk89]; norm_num
    · obtain ⟨e1, e2⟩ := hge hge90
      have : ¬ (((s.spawnTimer + 1 : ℕ) : ℚ) ≥ s.spawnInterval) := by
        rw [e2]
        have : s.spawnTimer + 1 ≤ 40 := by omega
        have : ((s.spawnTimer + 1 : ℕ) : ℚ) ≤ 40 := by exact_mod_cast this
        linarith
      rw [if_neg this]
      refine ⟨[], by simp, by simp, hgo, fun h9 => by omega, fun _ => ⟨by simp; omega, e2⟩⟩
  obtain ⟨extra, hto, hextra, htgo, htlt, htge⟩ := htick
  have hv0 : 0 ≤ speed s.gameTime ∧ speed s.gameTime ≤ 5.4 := by
    rw [hv]; constructor <;> linarith
  have hmv : ∀ o : Obstacle, o.x - 5.4 ≤ (moveObstacle (gH * GROUND_Y_RATIO) (speed s.gameTime) o).x ∧
      (o.falling = true →
        (moveObstacle (gH * GROUND_Y_RATIO) (speed s.gameTime) o).x = o.x) := by
    intro o
    rw [moveObstacle_x]
    split_ifs with hf
    · exact ⟨by linarith, fun _ => rfl⟩
    · exact ⟨by linarith [hv0.2], fun hc => absurd hc hf⟩
  -- spawned obstacles stay far to the right
  have hfar : ∀ o ∈ rest ++ extra, 880.6 - 5.4 * ((k : ℚ) + 1) ≤
      (moveObstacle (gH * GROUND_Y_RATIO) (speed s.gameTime) o).x := by
    intro o ho
    rcases List.mem_append.mp ho with h1 | h2
    · have := hrest o h1
      have := (hmv o).1
      linarith
    · obtain ⟨hk89, hx, hf⟩ := hextra o h2
      have hkq89 : (k : ℚ) = 89 := by exact_mod_cast hk89
      cases hfo : o.falling with
      | true => rw [(hmv o).2 hfo, hkq89]; linarith
      | false =>
        have := (hmv o).1
        rw [hf hfo] at this
        rw [hkq89]; linarith
  -- the placed block
  have hA : moveObstacle (gH * GROUND_Y_RATIO) (speed s.gameTime)
      ⟨ObstacleType.block, 840 - 5.2 * (k : ℚ) - 0.0004 * (k : ℚ) * ((k : ℚ) - 1), 30, h, 0, 0,
        false⟩ =
      ⟨ObstacleType.block, 840 - 5.2 * ((k + 1 : ℕ) : ℚ) -
        0.0004 * ((k + 1 : ℕ) : ℚ) * (((k + 1 : ℕ) : ℚ) - 1), 30, h, 0, 0, false⟩ := by
    simp only [moveObstacle, Bool.false_eq_true, if_false, hv, Obstacle.mk.injEq, and_true,
      true_and]
    push_cast
    ring
  have hAx : (160.64 : ℚ) ≤ 840 - 5.2 * ((k + 1 : ℕ) : ℚ) -
      0.0004 * ((k + 1 : ℕ) : ℚ) * (((k + 1 : ℕ) : ℚ) - 1) := by
    push_cast
    nlinarith [mul_nonneg (sub_nonneg.mpr hkq) (add_nonneg hk0 (by norm_num : (0 : ℚ) ≤ 129))]
  have hnohit : ∀ o ∈ (tick 800 r s).obstacles,
      hit (gH * GROUND_Y_RATIO) (stepPlayer (gH * GROUND_Y_RATIO) s.player)
        (moveObstacle (gH * GROUND_Y_RATIO) (speed s.gameTime) o) = false := by
    intro o ho
    apply hit_false_of_right
    rw [hstand, hp]
    simp only
    rw [hto, hobs, List.cons_append] at ho
    rcases List.mem_cons.mp ho with rfl | ho2
    · rw [hA]; simp only; linarith
    · have := hfar o ho2
      linarith
  rw [gameLoop_no_hit 800 gH r s hgo hnohit, hstand]
  refine ⟨htgo, hp, by simp [(tick_fields 800 r s).2.1, hgt], htlt, htge, ?_⟩
  refine ⟨((rest ++ extra).map
    (moveObstacle (gH * GROUND_Y_RATIO) (speed s.gameTime))).filter (fun o => !offscreen o), ?_, ?_⟩
  · simp only [hto, hobs, List.cons_append, List.map_cons, hA]
    rw [List.filter_cons_of_pos]
    simp only [offscreen, Bool.not_eq_true', decide_eq_false_iff_not, not_lt]
    rw [if_neg (by norm_num)]
    linarith
  · intro o ho
    obtain ⟨ho1, -⟩ := List.mem_filter.mp ho
    obtain ⟨a, ha, rfl⟩ := List.mem_map.mp ho1
    have := hfar a ha
    push_cast
    linarith

/-- Frame 130 of scenario A: the placed block has reached the character. -/
theorem scenarioA_hit (gH h : ℚ) (r : Draws) (s : State) (hh : 30 ≤ h)
    (hi : scenarioAInv gH h 129 s) : (gameLoop 800 gH r s).gameOver = true := by
  obtain ⟨hgo, hp, hgt, -, hge, rest, hobs, -⟩ := hi
  obtain ⟨e1, e2⟩ := hge (by norm_num)
  have hst : s.spawnTimer = 39 := by omega
  have hto : (tick 800 r s).obstacles = s.obstacles := by
    rw [tick_eq, if_neg]
    rw [hst, e2]; norm_num
  apply gameLoop_hit 800 gH r s hgo
  refine ⟨_, by rw [hto, hobs]; exact List.mem_cons_self _ _, ?_, ?_⟩
  · simp only [offscreen, moveObstacle, Bool.false_eq_true, if_false, decide_eq_false_iff_not,
      not_lt, hgt, speed, OBSTACLE_SPEED, SPEED_RAMP]
    norm_num
  · rw [hp, stepPlayer_standing]
    simp only [hit, boxTop, moveObstacle, Bool.false_eq_true, if_false, decide_eq_true_eq, hgt,
      speed, OBSTACLE_SPEED, SPEED_RAMP, PLAYER_W, PLAYER_H]
    refine ⟨by norm_num, by norm_num, by linarith, by linarith⟩

theorem scenarioA_init (gH h : ℚ) : scenarioAInv gH h 0 (scenarioA gH h) := by
  refine ⟨rfl, ?_, rfl, fun _ => ⟨rfl, rfl⟩, fun h9 => absurd h9 (by norm_num), [], ?_, ?_⟩
  · simp only [scenarioA, initState, PLAYER_H, Player.mk.injEq, and_true]
    norm_num
  · simp only [scenarioA, initState]
    norm_num
  · intro o ho; simp at ho

theorem scenarioA_run (gH h : ℚ) (ds : List Draws) (hv : ∀ r ∈ ds, r.valid)
    (hl : ds.length ≤ 129) :
    scenarioAInv gH h ds.length (runFrames 800 gH ds (scenarioA gH h)) := by
  induction ds using List.reverseRecOn with
  | nil => exact scenarioA_init gH h
  | append_singleton ds r ih =>
    rw [runFrames_append_one]
    simp only [List.length_append, List.length_singleton] at hl ⊢
    exact scenarioA_step gH h ds.length r _ (by omega) (hv r (by simp))
      (ih (fun a ha => hv a (by simp [ha])) (by omega))

/-- C9 (amended): in scenario A (canvas width 800, so `player.x = 144` and the
right edge of the shrunk hitbox is 160.64; character grounded and never
jumping; a block of width 30, with a height in the range `[30, 60)` of the
blocks that `spawnObstacle` creates, placed at `x = 840` when `gameTime = 0`;
any draws in `[0, 1)`), the run is still in Playing mode after every frame
before the 130th, and the 130th frame sets `gameOver`. -/
theorem scenarioA_collision_frame (gH h : ℚ) (ds : List Draws) (hh : 30 ≤ h ∧ h < 60)
    (hv : ∀ r ∈ ds, r.valid) :
    (scenarioA gH h).player.x + 0.32 * 52 = 160.64 ∧
    (ds.length < 130 → (runFrames 800 gH ds (scenarioA gH h)).gameOver = false) ∧
    (ds.length = 130 → (runFrames 800 gH ds (scenarioA gH h)).gameOver = true) := by
  refine ⟨by norm_num [scenarioA, initState], fun hl => ?_, fun hl => ?_⟩
  · exact (scenarioA_run gH h ds hv (by omega)).1
  · obtain ⟨ds1, r, rfl⟩ : ∃ ds1 r, ds = ds1 ++ [r] := by
      rcases List.eq_nil_or_concat ds with h0 | ⟨l, a, hla⟩
      · rw [h0] at hl; simp at hl
      · exact ⟨l, a, by simpa using hla⟩
    simp only [List.length_append, List.length_singleton] at hl
    rw [runFrames_append_one]
    apply scenarioA_hit gH h r _ hh.1
    have := scenarioA_run gH h ds1 (fun a ha => hv a (by simp [ha])) (by omega)
    rwa [show ds1.length = 129 by omega] at this

/-- Witness of C9 (amended) on a canvas 600 high, block height 30, all draws 0. -/
theorem scenarioA_collision_frame_witness :
    ((30 : ℚ) ≤ 30 ∧ (30 : ℚ) < 60) ∧ (∀ r ∈ List.replicate 130 zeroDraws, r.valid) ∧
    (runFrames 800 600 (List.replicate 130 zeroDraws) (scenarioA 600 30)).gameOver = true :=
  ⟨by norm_num, fun r hr => by rw [(List.mem_replicate.mp hr).2]; norm_num [Draws.valid, zeroDraws],
    (scenarioA_collision_frame 600 30 (List.replicate 130 zeroDraws) (by norm_num)
      (fun r hr => by rw [(List.mem_replicate.mp hr).2]; norm_num [Draws.valid, zeroDraws])).2.2
      (by simp)⟩

/-- C9 (counterexample): on an 800 x 600 canvas, with the block of width 30 and
height 30 placed at `x = 840` and all draws 0, the run is in Playing mode after
129 frames and `gameOver` is set by frame 130, one frame before
`ceil((840 - 160.64) / 5.2) = 131`: the scroll speed of frame `k + 1` is
`5.2 + 0.0008 k`, not 5.2. -/
theorem scenarioA_hit_before_frame_131 :
    (scenarioA 600 30).player.x = 144 ∧
    (scenarioA 600 30).obstacles = [⟨ObstacleType.block, 840, 30, 30, 0, 0, false⟩] ∧
    (runFrames 800 600 (List.replicate 129 zeroDraws) (scenarioA 600 30)).gameOver = false ∧
    (runFrames 800 600 (List.replicate 130 zeroDraws) (scenarioA 600 30)).gameOver = true ∧
    ⌈((840 : ℚ) - 160.64) / 5.2⌉ = 131 := by
  refine ⟨by decide!, by decide!, by decide!, by decide!, ?_⟩
  rw [Int.ceil_eq_iff]
  norm_num

/-! ## Scenario C: a jump -/

/-- One frame of an upward or downward flight that stays above the ground. -/
theorem stepPlayer_flight (g x : ℚ) (n : ℕ) (hn : n + 1 ≤ 61) :
    stepPlayer g ⟨x, g - 64 - 13.2 * (n : ℚ) + 0.21 * (n : ℚ) * ((n : ℚ) + 1),
        -13.2 + 0.42 * (n : ℚ), false⟩ =
      ⟨x, g - 64 - 13.2 * ((n + 1 : ℕ) : ℚ) + 0.21 * ((n + 1 : ℕ) : ℚ) * (((n + 1 : ℕ) : ℚ) + 1),
        -13.2 + 0.42 * ((n + 1 : ℕ) : ℚ), false⟩ := by
  have h0 : (0 : ℚ) ≤ n := Nat.cast_nonneg n
  have h1 : (n : ℚ) ≤ 60 := by exact_mod_cast Nat.le_of_succ_le_succ hn
  simp only [stepPlayer, GRAVITY, PLAYER_H]
  rw [if_neg]
  · simp only [Player.mk.injEq, and_true, true_and]
    push_cast
    constructor <;> ring
  · simp only [ge_iff_le, not_le]
    nlinarith [mul_nonneg h0 (sub_nonneg.mpr h1)]

/-- The frame in which the flight ends. -/
theorem stepPlayer_landing (g x : ℚ) :
    stepPlayer g ⟨x, g - 64 - 13.2 * ((61 : ℕ) : ℚ) + 0.21 * ((61 : ℕ) : ℚ) * (((61 : ℕ) : ℚ) + 1),
        -13.2 + 0.42 * ((61 : ℕ) : ℚ), false⟩ = ⟨x, g - 64, 0, true⟩ := by
  simp only [stepPlayer, GRAVITY, PLAYER_H]
  rw [if_pos]
  norm_num
  linarith

/-- The character's flight after a jump request, while the run goes on. -/
theorem jump_flight (gW gH : ℚ) (s : State) (ds : List Draws)
    (hs : s.gameOver = false) (hg : s.player.grounded = true) (hj : s.jumpPressed = false)
    (hy : s.player.y = gH * GROUND_Y_RATIO - 64)
    (hno : ∀ k < ds.length, (runFrames gW gH (ds.take k) (onJump spaceDown s)).gameOver = false)
    (hl : ds.length ≤ 61) :
    (runFrames gW gH ds (onJump spaceDown s)).player =
      ⟨s.player.x, gH * GROUND_Y_RATIO - 64 - 13.2 * (ds.length : ℚ) +
        0.21 * (ds.length : ℚ) * ((ds.length : ℚ) + 1), -13.2 + 0.42 * (ds.length : ℚ), false⟩ := by
  induction ds using List.reverseRecOn with
  | nil =>
    simp only [runFrames, List.foldl_nil, onJump, hs, hj, hg, spaceDown, List.length_nil]
    simp [JUMP_FORCE, hy]
  | append_singleton ds r ih =>
    simp only [List.length_append, List.length_singleton] at hl hno
    have hprev := hno ds.length (by omega)
    rw [List.take_left] at hprev
    have ih1 := ih (fun k hk => by
      have := hno k (by omega)
      rwa [List.take_append_of_le_length (by omega)] at this) (by omega)
    rw [runFrames_append_one, (gameLoop_alive gW gH r _ hprev).1, ih1]
    simp only [List.length_append, List.length_singleton]
    exact stepPlayer_flight _ _ ds.length (by omega)

/-- C10: scenario C. From a Playing state whose character stands on the ground
line of a canvas of height `gH`, a jump request sets `vy = -13.2`; as long as
no collision ends the run, after each of the frames 1 to 61 the character is
not grounded and strictly above `groundY - 64`, at height
`groundY - 64 - 13.2 k + 0.21 k (k + 1)`, and after frame 62 it is back at
`y = groundY - 64` with `vy = 0` and `grounded` set; 62 is the first `k ≥ 1`
with `-13.2 k + 0.21 k (k + 1) ≥ 0`. -/
theorem jump_round_trip (gW gH : ℚ) (s : State) (ds : List Draws)
    (hs : s.gameOver = false) (hg : s.player.grounded = true) (hj : s.jumpPressed = false)
    (hy : s.player.y = gH * 0.78 - 64)
    (hno : ∀ k < ds.length, (runFrames gW gH (ds.take k) (onJump spaceDown s)).gameOver = false) :
    (onJump spaceDown s).player.vy = -13.2 ∧
    (1 ≤ ds.length → ds.length ≤ 61 →
      (runFrames gW gH ds (onJump spaceDown s)).player.grounded = false ∧
      (runFrames gW gH ds (onJump spaceDown s)).player.y < gH * 0.78 - 64 ∧
      (runFrames gW gH ds (onJump spaceDown s)).player.y =
        gH * 0.78 - 64 - 13.2 * (ds.length : ℚ) + 0.21 * (ds.length : ℚ) * ((ds.length : ℚ) + 1)) ∧
    (ds.length = 62 →
      (runFrames gW gH ds (onJump spaceDown s)).player.y = gH * 0.78 - 64 ∧
      (runFrames gW gH ds (onJump spaceDown s)).player.vy = 0 ∧
      (runFrames gW gH ds (onJump spaceDown s)).player.grounded = true) ∧
    (∀ k : ℕ, 1 ≤ k → (0 ≤ -13.2 * (k : ℚ) + 0.21 * (k : ℚ) * ((k : ℚ) + 1) ↔ 62 ≤ k)) := by
  have hy2 : s.player.y = gH * GROUND_Y_RATIO - 64 := by rw [hy, GROUND_Y_RATIO]
  refine ⟨?_, fun h1 h61 => ?_, fun h62 => ?_, fun k hk => ?_⟩
  · simp [onJump, hs, hj, hg, spaceDown, JUMP_FORCE]
  · rw [jump_flight gW gH s ds hs hg hj hy2 hno h61]
    simp only [ GROUND_Y_RATIO, true_and, and_true]
    have a1 : (1 : ℚ) ≤ ds.length := by exact_mod_cast h1
    have a2 : (ds.length : ℚ) ≤ 61 := by exact_mod_cast h61
    nlinarith [mul_nonneg (sub_nonneg.mpr a1) (sub_nonneg.mpr a2)]
  · obtain ⟨ds1, r, rfl⟩ : ∃ ds1 r, ds = ds1 ++ [r] := by
      rcases List.eq_nil_or_concat ds with h0 | ⟨l, a, hla⟩
      · rw [h0] at h62; simp at h62
      · exact ⟨l, a, by simpa using hla⟩
    simp only [List.length_append, List.length_singleton] at h62 hno
    have hl : ds1.length = 61 := by omega
    have hprev := hno ds1.length (by omega)
    rw [List.take_left] at hprev
    have hfl := jump_flight gW gH s ds1 hs hg hj hy2 (fun k hk => by
      have := hno k (by omega)
      rwa [List.take_append_of_le_length (by omega)] at this) (by omega)
    rw [runFrames_append_one, (gameLoop_alive gW gH r _ hprev).1, hfl, hl, stepPlayer_landing]
    simp [ GROUND_Y_RATIO]
  · have k1 : (1 : ℚ) ≤ k := by exact_mod_cast hk
    constructor
    · intro h
      by_contra hc
      have : k ≤ 61 := by omega
      have a2 : (k : ℚ) ≤ 61 := by exact_mod_cast this
      nlinarith
    · intro h
      have a2 : (62 : ℚ) ≤ k := by exact_mod_cast h
      nlinarith

/-- Witness of C10: a jump from the initial state of an 800 x 600 session; no
obstacle is spawned during the 62 frames. -/
theorem jump_round_trip_witness :
    (initState 800 600).gameOver = false ∧
    (∀ k < (List.replicate 62 zeroDraws).length,
      (runFrames 800 600 ((List.replicate 62 zeroDraws).take k)
        (onJump spaceDown (initState 800 600))).gameOver = false) ∧
    (runFrames 800 600 (List.replicate 62 zeroDraws)
      (onJump spaceDown (initState 800 600))).player.grounded = true :=
  ⟨rfl, by decide!,
    ((jump_round_trip 800 600 (initState 800 600) (List.replicate 62 zeroDraws) rfl rfl rfl
      (by norm_num [initState, GROUND_Y_RATIO, PLAYER_H]) (by decide!)).2.2.1 (by simp)).2.2⟩

/-! ## Scenario B and the obstacle generator -/

/-- The obstacle list the loop leaves behind, whether or not something was
hit: every obstacle moved, those that left the screen dropped. -/
theorem foldr_loopBody_obstacles (g v : ℚ) (l : List Obstacle) (s : State) :
    (l.foldr (loopBody g v) s).obstacles =
      (l.map (moveObstacle g v)).filter (fun o => !offscreen o) ++ s.obstacles := by
  induction l with
  | nil => simp
  | cons o l ih =>
    simp only [List.foldr_cons, loopBody, List.map_cons]
    by_cases hoff : offscreen (moveObstacle g v o) = true
    · simp [hoff, ih]
    · by_cases hh : hit g (l.foldr (loopBody g v) s).player (moveObstacle g v o) = true
      · simp [hoff, hh, ih, die, cleanup]
      · simp [hoff, hh, ih]

/-- The obstacle list after a Playing frame. -/
theorem gameLoop_obstacles (gW gH : ℚ) (r : Draws) (s : State) (h : s.gameOver = false) :
    (gameLoop gW gH r s).obstacles =
      ((tick gW r s).obstacles.map
        (moveObstacle (gH * GROUND_Y_RATIO) (speed s.gameTime))).filter (fun o => !offscreen o) := by
  simp only [gameLoop, h, Bool.false_eq_true, if_false, obstacleLoop]
  rw [foldr_loopBody_obstacles]
  simp

/-- The fall of the avalanche of scenario B, frame by frame. -/
theorem avalanche_fall (ty : ObstacleType) (x w : ℚ) (t0 k : ℕ) (hk : k ≤ 49) :
    moveFrames 600 t0 k ⟨ty, x, w, 40, -60, 0, true⟩ =
      ⟨ty, x, w, 40, -60 + 0.25 * (k : ℚ) * ((k : ℚ) + 1), 0.5 * (k : ℚ), true⟩ := by
  induction k with
  | zero => simp [moveFrames]
  | succ n ih =>
    have h0 : (0 : ℚ) ≤ n := Nat.cast_nonneg n
    have h1 : (n : ℚ) ≤ 48 := by exact_mod_cast Nat.le_of_succ_le_succ hk
    simp only [moveFrames, ih (by omega), moveObstacle, if_true]
    rw [if_neg]
    · simp only [Obstacle.mk.injEq, and_true, true_and]
      push_cast
      constructor <;> ring
    · simp only [ge_iff_le, not_le]
      nlinarith [mul_nonneg h0 (sub_nonneg.mpr h1)]

/-- Frame 50 of scenario B: the avalanche reaches the ground line. -/
theorem avalanche_landing (ty : ObstacleType) (x w : ℚ) (t0 : ℕ) :
    moveFrames 600 t0 50 ⟨ty, x, w, 40, -60, 0, true⟩ = ⟨ty, x, w, 40, 560, 0, false⟩ := by
  simp only [moveFrames, avalanche_fall ty x w t0 49 (le_refl _), moveObstacle, if_true]
  rw [if_pos]
  · norm_num
  · norm_num

/-- From frame 50 on the avalanche of scenario B rests on the ground. -/
theorem avalanche_scroll (ty : ObstacleType) (x w : ℚ) (t0 k : ℕ) (hk : 50 ≤ k) :
    ∃ x1, moveFrames 600 t0 k ⟨ty, x, w, 40, -60, 0, true⟩ = ⟨ty, x1, w, 40, 560, 0, false⟩ := by
  induction k with
  | zero => omega
  | succ n ih =>
    rcases Nat.lt_or_ge n 50 with hlt | hge
    · have : n = 49 := by omega
      subst this
      exact ⟨x, avalanche_landing ty x w t0⟩
    · obtain ⟨x1, hx1⟩ := ih hge
      exact ⟨x1 - speed (t0 + n), by simp [moveFrames, hx1, moveObstacle]⟩

/-- C11: scenario B. An obstacle with `y = -60`, `vy = 0`, `falling = true` and
height 40, moved by Playing frames with ground line 600 (canvas height
`10000 / 13`), is still falling after each of the frames 1 to 49, with `x`
unchanged and `y = -60 + 0.25 k (k + 1)`; after frame 50 it has `y = 560`,
`vy = 0`, `falling = false`; in each later frame `y` stays 560, `falling` stays
false and `x` drops by the scroll speed of that frame. 50 is the first `k ≥ 1`
with `-60 + 0.25 k (k + 1) + 40 ≥ 600`. A Playing frame applies exactly this
movement to every obstacle in the list. -/
theorem avalanche_drop (ty : ObstacleType) (x w : ℚ) (t0 k : ℕ) :
    (1 ≤ k → k ≤ 49 →
      (moveFrames 600 t0 k ⟨ty, x, w, 40, -60, 0, true⟩).falling = true ∧
      (moveFrames 600 t0 k ⟨ty, x, w, 40, -60, 0, true⟩).x = x ∧
      (moveFrames 600 t0 k ⟨ty, x, w, 40, -60, 0, true⟩).y =
        -60 + 0.25 * (k : ℚ) * ((k : ℚ) + 1)) ∧
    ((moveFrames 600 t0 50 ⟨ty, x, w, 40, -60, 0, true⟩).y = 560 ∧
      (moveFrames 600 t0 50 ⟨ty, x, w, 40, -60, 0, true⟩).vy = 0 ∧
      (moveFrames 600 t0 50 ⟨ty, x, w, 40, -60, 0, true⟩).falling = false ∧
      (moveFrames 600 t0 50 ⟨ty, x, w, 40, -60, 0, true⟩).x = x) ∧
    (50 ≤ k →
      (moveFrames 600 t0 (k + 1) ⟨ty, x, w, 40, -60, 0, true⟩).y = 560 ∧
      (moveFrames 600 t0 (k + 1) ⟨ty, x, w, 40, -60, 0, true⟩).falling = false ∧
      (moveFrames 600 t0 (k + 1) ⟨ty, x, w, 40, -60, 0, true⟩).x =
        (moveFrames 600 t0 k ⟨ty, x, w, 40, -60, 0, true⟩).x - speed (t0 + k) ∧
      speed (t0 + k) = 5.2 + 0.0008 * ((t0 + k : ℕ) : ℚ)) ∧
    (1 ≤ k → (600 ≤ -60 + 0.25 * (k : ℚ) * ((k : ℚ) + 1) + 40 ↔ 50 ≤ k)) ∧
    (∀ (gW : ℚ) (r : Draws) (s : State), s.gameOver = false →
      (gameLoop gW (10000 / 13) r s).obstacles =
        ((tick gW r s).obstacles.map (moveObstacle 600 (speed s.gameTime))).filter
          (fun o => !offscreen o)) := by
  refine ⟨fun _ h49 => ?_, ?_, fun h50 => ?_, fun h1 => ?_, fun gW r s hs => ?_⟩
  · rw [avalanche_fall ty x w t0 k h49]
    exact ⟨rfl, rfl, rfl⟩
  · rw [avalanche_landing]
    exact ⟨rfl, rfl, rfl, rfl⟩
  · obtain ⟨x1, hx1⟩ := avalanche_scroll ty x w t0 k h50
    refine ⟨?_, ?_, ?_, ?_⟩
    · simp [moveFrames, hx1, moveObstacle]
    · simp [moveFrames, hx1, moveObstacle]
    · simp [moveFrames, hx1, moveObstacle]
    · simp only [speed, OBSTACLE_SPEED, SPEED_RAMP]; ring
  · have k1 : (1 : ℚ) ≤ k := by exact_mod_cast h1
    constructor
    · intro h
      by_contra hc
      have : k ≤ 49 := by omega
      have a2 : (k : ℚ) ≤ 49 := by exact_mod_cast this
      nlinarith
    · intro h
      have a2 : (50 : ℚ) ≤ k := by exact_mod_cast h
      nlinarith
  · have hg : (10000 / 13 : ℚ) * GROUND_Y_RATIO = 600 := by norm_num [ GROUND_Y_RATIO]
    rw [gameLoop_obstacles gW _ r s hs, hg]

/-- Witness of C11: an avalanche at `x = 500`, at frames 49, 69 and 70. -/
theorem avalanche_drop_witness :
    (moveFrames 600 0 49 ⟨ObstacleType.avalanche, 500, 60, 40, -60, 0, true⟩).falling = true ∧
    (moveFrames 600 0 70 ⟨ObstacleType.avalanche, 500, 60, 40, -60, 0, true⟩).y = 560 ∧
    (moveFrames 600 0 70 ⟨ObstacleType.avalanche, 500, 60, 40, -60, 0, true⟩).x =
      (moveFrames 600 0 69 ⟨ObstacleType.avalanche, 500, 60, 40, -60, 0, true⟩).x - speed 69 :=
  ⟨((avalanche_drop ObstacleType.avalanche 500 60 0 49).1 (by decide) (by decide)).1,
    ((avalanche_drop ObstacleType.avalanche 500 60 0 69).2.2.1 (by decide)).1,
    ((avalanche_drop ObstacleType.avalanche 500 60 0 69).2.2.1 (by decide)).2.2.1⟩

/-- C12: in a Playing frame `gameTime` grows by one and the spawn timer is
incremented; if the incremented timer is at least the spawn interval,
`spawnObstacle` appends exactly one obstacle at the end of the list, the timer
becomes 0 and the interval `max(48, 90 - 0.02 * gameTime)` with the incremented
`gameTime`; otherwise nothing is appended, the timer keeps its incremented
value and the interval is unchanged. The list is then passed through the
obstacle loop. -/
theorem spawn_timer_step (gW gH : ℚ) (r : Draws) (s : State) (h : s.gameOver = false) :
    (gameLoop gW gH r s).gameTime = s.gameTime + 1 ∧
    (((s.spawnTimer + 1 : ℕ) : ℚ) ≥ s.spawnInterval →
      (gameLoop gW gH r s).spawnTimer = 0 ∧
      (gameLoop gW gH r s).spawnInterval = max 48 (90 - 0.02 * ((s.gameTime + 1 : ℕ) : ℚ)) ∧
      (tick gW r s).obstacles = (spawnObstacle gW r s).obstacles ∧
      (∃ o, (tick gW r s).obstacles = s.obstacles ++ [o]) ∧
      (tick gW r s).obstacles.length = s.obstacles.length + 1) ∧
    (¬ (((s.spawnTimer + 1 : ℕ) : ℚ) ≥ s.spawnInterval) →
      (gameLoop gW gH r s).spawnTimer = s.spawnTimer + 1 ∧
      (gameLoop gW gH r s).spawnInterval = s.spawnInterval ∧
      (tick gW r s).obstacles = s.obstacles) ∧
    (gameLoop gW gH r s).obstacles =
      ((tick gW r s).obstacles.map
        (moveObstacle (gH * GROUND_Y_RATIO) (speed s.gameTime))).filter (fun o => !offscreen o) := by
  obtain ⟨-, h2, h3, h4, -⟩ := gameLoop_alive gW gH r s h
  have hone : ∃ o, (spawnObstacle gW r s).obstacles = s.obstacles ++ [o] := by
    simp only [spawnObstacle]
    split_ifs <;> exact ⟨_, rfl⟩
  refine ⟨h2, fun hc => ?_, fun hc => ?_, gameLoop_obstacles gW gH r s h⟩
  · rw [h3, h4, tick_eq, if_pos hc]
    obtain ⟨o, ho⟩ := hone
    refine ⟨rfl, ?_, rfl, ⟨o, ho⟩, ?_⟩
    · simp only; rw [mul_comm]
    · simp only [ho, List.length_append, List.length_singleton]
  · rw [h3, h4, tick_eq, if_neg hc]
    exact ⟨rfl, rfl, rfl⟩

/-- Witness of C12: the first frame of an 800 x 600 session. -/
theorem spawn_timer_step_witness :
    (initState 800 600).gameOver = false ∧
    (gameLoop 800 600 zeroDraws (initState 800 600)).spawnTimer = 1 ∧
    (gameLoop 800 600 zeroDraws (initState 800 600)).spawnInterval = 90 :=
  ⟨rfl,
    ((spawn_timer_step 800 600 zeroDraws (initState 800 600) rfl).2.2.1
      (by norm_num [initState])).1,
    ((spawn_timer_step 800 600 zeroDraws (initState 800 600) rfl).2.2.1
      (by norm_num [initState])).2.1⟩

/-! ## Properties of binary64 rounding -/

theorem log2Fuel_spec : ∀ (f n : ℕ), 1 ≤ n → n ≤ f + 1 →
    2 ^ log2Fuel f n ≤ n ∧ n < 2 ^ (log2Fuel f n + 1) := by
  intro f
  induction f with
  | zero =>
    intro n h1 h2
    have : n = 1 := by omega
    subst this
    simp [log2Fuel]
  | succ f ih =>
    intro n h1 h2
    unfold log2Fuel
    split_ifs with hn
    · have : n = 1 := by omega
      subst this
      simp
    · obtain ⟨a, b⟩ := ih (n / 2) (by omega) (by omega)
      rw [pow_succ] at b ⊢
      rw [pow_succ]
      constructor <;> omega

theorem natLog2_spec (n : ℕ) (h : 1 ≤ n) :
    2 ^ natLog2 n ≤ n ∧ n < 2 ^ (natLog2 n + 1) :=
  log2Fuel_spec n n h (by omega)

theorem binade_spec (q : ℚ) (hq : 0 < q) :
    (2 : ℚ) ^ binade q ≤ q ∧ q < (2 : ℚ) ^ (binade q + 1) := by
  have hnum : 0 < q.num := Rat.num_pos.mpr hq
  have hn1 : 1 ≤ q.num.natAbs := Int.natAbs_pos.mpr (ne_of_gt hnum)
  have hd1 : 1 ≤ q.den := q.den_pos
  obtain ⟨a1, a2⟩ := natLog2_spec q.num.natAbs hn1
  obtain ⟨b1, b2⟩ := natLog2_spec q.den hd1
  have hqe : q = (q.num.natAbs : ℚ) / (q.den : ℚ) := by
    have h1 : ((q.num.natAbs : ℤ) : ℚ) = (q.num : ℚ) := by
      rw [Int.natAbs_of_nonneg (le_of_lt hnum)]
    have h2 : ((q.num.natAbs : ℕ) : ℚ) = ((q.num.natAbs : ℤ) : ℚ) := (Int.cast_natCast _).symm
    rw [h2, h1]
    exact (Rat.num_div_den q).symm
  set n := q.num.natAbs with hn
  set d := q.den with hd
  set a := natLog2 n with ha
  set b := natLog2 d with hb
  have hdq : (0 : ℚ) < d := by exact_mod_cast hd1
  have h2a : (0 : ℚ) < 2 ^ a := by positivity
  have h2b : (0 : ℚ) < 2 ^ b := by positivity
  have A1 : ((2 : ℚ) ^ a) ≤ n := by exact_mod_cast a1
  have A2 : (n : ℚ) < 2 ^ (a + 1) := by exact_mod_cast a2
  have B1 : ((2 : ℚ) ^ b) ≤ d := by exact_mod_cast b1
  have B2 : (d : ℚ) < 2 ^ (b + 1) := by exact_mod_cast b2
  have hn0 : (0 : ℚ) < n := lt_of_lt_of_le h2a A1
  have e1 : (2 : ℚ) ^ ((a : ℤ) - (b : ℤ)) = 2 ^ a / 2 ^ b := by
    rw [zpow_sub₀ (by norm_num), zpow_natCast, zpow_natCast]
  have e2 : (2 : ℚ) ^ ((a : ℤ) - (b : ℤ) + 1) = 2 ^ (a + 1) / 2 ^ b := by
    rw [show (a : ℤ) - (b : ℤ) + 1 = ((a + 1 : ℕ) : ℤ) - (b : ℤ) by push_cast; ring,
      zpow_sub₀ (by norm_num), zpow_natCast, zpow_natCast]
  have e3 : (2 : ℚ) ^ ((a : ℤ) - (b : ℤ) - 1) = 2 ^ a / 2 ^ (b + 1) := by
    rw [show (a : ℤ) - (b : ℤ) - 1 = (a : ℤ) - ((b + 1 : ℕ) : ℤ) by push_cast; ring,
      zpow_sub₀ (by norm_num), zpow_natCast, zpow_natCast]
  unfold binade
  rw [← hn, ← hd, ← ha, ← hb]
  split_ifs with hc
  · have C : (d : ℚ) * 2 ^ a ≤ n * 2 ^ b := by exact_mod_cast hc
    rw [e1, e2, hqe]
    constructor
    · rw [div_le_div_iff₀ h2b hdq]; linarith
    · rw [div_lt_div_iff₀ hdq h2b]
      calc (n : ℚ) * 2 ^ b < 2 ^ (a + 1) * 2 ^ b := by
            apply mul_lt_mul_of_pos_right A2 h2b
        _ ≤ 2 ^ (a + 1) * d := by
            apply mul_le_mul_of_nonneg_left B1 (by positivity)
  · have C : (n : ℚ) * 2 ^ b < d * 2 ^ a := by
      have := not_le.mp hc
      exact_mod_cast this
    rw [show (a : ℤ) - (b : ℤ) - 1 + 1 = (a : ℤ) - (b : ℤ) by ring, e1, e3, hqe]
    constructor
    · rw [div_le_div_iff₀ (by positivity) hdq]
      calc (2 : ℚ) ^ a * d ≤ n * d := by
            apply mul_le_mul_of_nonneg_right A1 (le_of_lt hdq)
        _ ≤ n * 2 ^ (b + 1) := by
            apply mul_le_mul_of_nonneg_left (le_of_lt B2) (le_of_lt hn0)
    · rw [div_lt_div_iff₀ hdq h2b]; linarith

theorem roundEven_bounds (y : ℚ) : ⌊y⌋ ≤ roundEven y ∧ roundEven y ≤ ⌊y⌋ + 1 := by
  unfold roundEven
  split_ifs <;> constructor <;> omega

theorem roundEven_intCast (z : ℤ) : roundEven (z : ℚ) = z := by
  simp [roundEven]

/-- The rounded integer is at most half a unit away. -/
theorem abs_roundEven_sub_le (y : ℚ) : |(roundEven y : ℚ) - y| ≤ 1 / 2 := by
  have h1 : (⌊y⌋ : ℚ) ≤ y := Int.floor_le y
  have h2 : y < (⌊y⌋ : ℚ) + 1 := Int.lt_floor_add_one y
  rw [abs_le]
  unfold roundEven
  split_ifs with c1 c2 c3
  · constructor <;> linarith
  · push_cast; constructor <;> linarith
  · have : y - ⌊y⌋ = 1 / 2 := le_antisymm (not_lt.mp c2) (not_lt.mp c1)
    constructor <;> linarith
  · have : y - ⌊y⌋ = 1 / 2 := le_antisymm (not_lt.mp c2) (not_lt.mp c1)
    push_cast; constructor <;> linarith

theorem roundEven_mono {y z : ℚ} (h : y ≤ z) : roundEven y ≤ roundEven z := by
  rcases lt_or_eq_of_le (Int.floor_mono h) with hlt | heq
  · have := (roundEven_bounds y).2
    have := (roundEven_bounds z).1
    omega
  · have hr : y - ⌊y⌋ ≤ z - ⌊z⌋ := by rw [heq]; linarith
    unfold roundEven
    rw [heq]
    rw [heq] at hr
    split_ifs with c1 c2 c3 c4 c5 c6 c7 c8 <;> first | omega | (exfalso; linarith)

theorem roundEven_le_of_le_int {y : ℚ} {z : ℤ} (h : y ≤ z) : roundEven y ≤ z := by
  have := roundEven_mono h
  rwa [roundEven_intCast] at this

theorem le_roundEven_of_int_le {y : ℚ} {z : ℤ} (h : (z : ℚ) ≤ y) : z ≤ roundEven y := by
  have := roundEven_mono h
  rwa [roundEven_intCast] at this

theorem two_zpow_pos (k : ℤ) : (0 : ℚ) < 2 ^ k := zpow_pos (by norm_num) k

theorem two_zpow_toNat (m : ℤ) (hm : 0 ≤ m) : (((2 : ℤ) ^ m.toNat : ℤ) : ℚ) = (2 : ℚ) ^ m := by
  push_cast
  rw [← zpow_natCast, Int.toNat_of_nonneg hm]

theorem fl_zero : fl 0 = 0 := by
  simp [fl, roundEven]

theorem fl_nonneg {q : ℚ} (h : 0 ≤ q) : 0 ≤ fl q := by
  unfold fl
  apply div_nonneg _ (le_of_lt (two_zpow_pos _))
  have : (0 : ℤ) ≤ roundEven (q * 2 ^ gridBits q) :=
    le_roundEven_of_int_le (by simpa using mul_nonneg h (le_of_lt (two_zpow_pos _)))
  exact_mod_cast this

theorem binade_lt_of_lt {q : ℚ} {E : ℤ} (hq : 0 < q) (h : q < 2 ^ E) : binade q < E := by
  by_contra hc
  have h1 := (binade_spec q hq).1
  have h2 : (2 : ℚ) ^ E ≤ 2 ^ binade q := zpow_le_zpow_right₀ (by norm_num) (not_lt.mp hc)
  linarith

theorem binade_mono {a b : ℚ} (ha : 0 < a) (hab : a ≤ b) : binade a ≤ binade b := by
  have h := binade_lt_of_lt ha (lt_of_le_of_lt hab (binade_spec b (lt_of_lt_of_le ha hab)).2)
  omega

/-- Rounding to binary64 is monotone on the non-negative rationals. -/
theorem fl_mono {a b : ℚ} (ha : 0 ≤ a) (hab : a ≤ b) : fl a ≤ fl b := by
  rcases eq_or_lt_of_le ha with rfl | hpos
  · rw [fl_zero]; exact fl_nonneg hab
  have hb : 0 < b := lt_of_lt_of_le hpos hab
  have he := binade_mono hpos hab
  have hk : gridBits b ≤ gridBits a := by
    unfold gridBits
    exact min_le_min (by omega) (le_refl _)
  rcases eq_or_lt_of_le hk with heq | hlt
  · unfold fl
    rw [← heq]
    apply div_le_div_of_nonneg_right _ (le_of_lt (two_zpow_pos _))
    have : roundEven (a * 2 ^ gridBits b) ≤ roundEven (b * 2 ^ gridBits b) :=
      roundEven_mono (mul_le_mul_of_nonneg_right hab (le_of_lt (two_zpow_pos _)))
    exact_mod_cast this
  · have hka : gridBits a ≤ 52 - binade a := min_le_left _ _
    have hka2 : gridBits a ≤ 1074 := min_le_right _ _
    have hkb : gridBits b = 52 - binade b := by
      unfold gridBits at hlt hka2 ⊢
      rcases min_choice (52 - binade b) 1074 with h | h
      · exact h
      · rw [h] at hlt; omega
    -- `fl a ≤ 2 ^ binade b ≤ fl b`
    have c2 : (2 : ℚ) ^ binade b ≤ fl b := by
      have h1 : (((2 : ℤ) ^ (52 : ℤ).toNat : ℤ) : ℚ) ≤ b * 2 ^ gridBits b := by
        rw [two_zpow_toNat 52 (by norm_num), hkb]
        calc (2 : ℚ) ^ (52 : ℤ) = 2 ^ binade b * 2 ^ (52 - binade b) := by
              rw [← zpow_add₀ (by norm_num)]; congr 1; ring
          _ ≤ b * 2 ^ (52 - binade b) :=
              mul_le_mul_of_nonneg_right (binade_spec b hb).1 (le_of_lt (two_zpow_pos _))
      have h2 := le_roundEven_of_int_le h1
      have h3 : (((2 : ℤ) ^ (52 : ℤ).toNat : ℤ) : ℚ) ≤ (roundEven (b * 2 ^ gridBits b) : ℚ) := by
        exact_mod_cast h2
      unfold fl
      rw [le_div_iff₀ (two_zpow_pos _)]
      calc (2 : ℚ) ^ binade b * 2 ^ gridBits b = 2 ^ (52 : ℤ) := by
            rw [← zpow_add₀ (by norm_num), hkb]; congr 1; ring
        _ = (((2 : ℤ) ^ (52 : ℤ).toNat : ℤ) : ℚ) := (two_zpow_toNat 52 (by norm_num)).symm
        _ ≤ _ := h3
    have c1 : fl a ≤ (2 : ℚ) ^ binade b := by
      have hm : 0 ≤ binade b + gridBits a := by omega
      have h0 : a ≤ 2 ^ binade b := by
        have := (binade_spec a hpos).2
        have : (2 : ℚ) ^ (binade a + 1) ≤ 2 ^ binade b :=
          zpow_le_zpow_right₀ (by norm_num) (by omega)
        linarith [(binade_spec a hpos).2]
      have h1 : a * 2 ^ gridBits a ≤ (((2 : ℤ) ^ (binade b + gridBits a).toNat : ℤ) : ℚ) := by
        rw [two_zpow_toNat _ hm, zpow_add₀ (by norm_num)]
        exact mul_le_mul_of_nonneg_right h0 (le_of_lt (two_zpow_pos _))
      have h2 := roundEven_le_of_le_int h1
      have h3 : (roundEven (a * 2 ^ gridBits a) : ℚ) ≤
          (((2 : ℤ) ^ (binade b + gridBits a).toNat : ℤ) : ℚ) := by exact_mod_cast h2
      unfold fl
      rw [div_le_iff₀ (two_zpow_pos _)]
      calc (roundEven (a * 2 ^ gridBits a) : ℚ) ≤ _ := h3
        _ = 2 ^ binade b * 2 ^ gridBits a := by
            rw [two_zpow_toNat _ hm, zpow_add₀ (by norm_num)]
    exact le_trans c1 c2

/-- A rational on the grid of its own binade is a binary64 number. -/
theorem fl_exact (q : ℚ) (z : ℤ) (hz : q * 2 ^ gridBits q = z) : fl q = q := by
  unfold fl
  rw [hz, roundEven_intCast, ← hz]
  field_simp

/-- A rational that is a multiple of `2 ^ (-j)` and smaller than `2 ^ (53 - j)`
is a binary64 number (`j` at most 1074). -/
theorem fl_dyadic (z : ℤ) (j : ℕ) (hj : (j : ℤ) ≤ 1074) (hz0 : 0 < z)
    (hz : (z : ℚ) < 2 ^ (53 : ℤ)) : fl ((z : ℚ) / 2 ^ j) = (z : ℚ) / 2 ^ j := by
  have hpos : (0 : ℚ) < (z : ℚ) / 2 ^ j := by
    apply div_pos _ (by positivity)
    exact_mod_cast hz0
  have hlt : (z : ℚ) / 2 ^ j < 2 ^ ((53 : ℤ) - j) := by
    rw [zpow_sub₀ (by norm_num), zpow_natCast]
    exact div_lt_div_of_pos_right hz (by positivity)
  have hb := binade_lt_of_lt hpos hlt
  have hg : (j : ℤ) ≤ gridBits ((z : ℚ) / 2 ^ j) := by
    unfold gridBits
    exact le_min (by omega) hj
  apply fl_exact _ (z * 2 ^ (gridBits ((z : ℚ) / 2 ^ j) - j).toNat)
  push_cast
  rw [← zpow_natCast (2 : ℚ) (gridBits ((z : ℚ) / 2 ^ j) - j).toNat,
    Int.toNat_of_nonneg (by omega), zpow_sub₀ (by norm_num), zpow_natCast]
  field_simp

theorem fl_natCast (n : ℕ) (h : n < 2 ^ 53) : fl (n : ℚ) = n := by
  rcases Nat.eq_zero_or_pos n with rfl | hpos
  · simpa using fl_zero
  · have := fl_dyadic (n : ℤ) 0 (by norm_num) (by exact_mod_cast hpos)
      (by
        rw [Int.cast_natCast, show ((2 : ℚ) ^ (53 : ℤ)) = ((2 ^ 53 : ℕ) : ℚ) by norm_num]
        exact_mod_cast h)
    simpa using this

theorem fl_half_natCast (n : ℕ) (h : n < 2 ^ 53) : fl ((n : ℚ) * 0.5) = (n : ℚ) * 0.5 := by
  rcases Nat.eq_zero_or_pos n with rfl | hpos
  · simpa using fl_zero
  · have := fl_dyadic (n : ℤ) 1 (by norm_num) (by exact_mod_cast hpos)
      (by
        rw [Int.cast_natCast, show ((2 : ℚ) ^ (53 : ℤ)) = ((2 ^ 53 : ℕ) : ℚ) by norm_num]
        exact_mod_cast h)
    have e : (n : ℚ) * 0.5 = ((n : ℤ) : ℚ) / 2 ^ 1 := by push_cast; norm_num; ring
    rw [e]; exact this

/-- A sum `c + fl (d * m)` with `0 ≤ d < 1` stays between `c` and `c + m`
after rounding, when both ends are binary64 numbers. -/
theorem fl_affine_bounds (c m d : ℚ) (hc : 0 ≤ c) (hm : 0 ≤ m) (hd0 : 0 ≤ d) (hd1 : d < 1)
    (fc : fl c = c) (fm : fl m = m) (fcm : fl (c + m) = c + m) :
    c ≤ fl (c + fl (d * m)) ∧ fl (c + fl (d * m)) ≤ c + m := by
  have h0 : 0 ≤ d * m := mul_nonneg hd0 hm
  have h1 : d * m ≤ m := by nlinarith
  have t0 : 0 ≤ fl (d * m) := fl_nonneg h0
  have t1 : fl (d * m) ≤ m := by
    have := fl_mono h0 h1
    rwa [fm] at this
  constructor
  · have := fl_mono hc (show c ≤ c + fl (d * m) by linarith)
    rwa [fc] at this
  · have := fl_mono (show 0 ≤ c + fl (d * m) by linarith) (show c + fl (d * m) ≤ c + m by linarith)
    rwa [fcm] at this

theorem binade_neg (q : ℚ) : binade (-q) = binade q := by
  simp [binade]

/-- Rounding a rational of size at most `2 ^ E` to binary64 moves it by at most
`2 ^ (E - 53)` (normal range). -/
theorem fl_error (q : ℚ) (E : ℤ) (hE : -1022 ≤ E) (hq : |q| ≤ 2 ^ E) :
    |fl q - q| ≤ 2 ^ (E - 53) := by
  rcases eq_or_ne q 0 with rfl | hne
  · rw [fl_zero]; simp only [sub_zero, abs_zero]; exact le_of_lt (two_zpow_pos _)
  have habs : 0 < |q| := abs_pos.mpr hne
  have hb : binade q ≤ E := by
    have e : binade |q| = binade q := by
      rcases abs_choice q with h | h
      · rw [h]
      · rw [h, binade_neg]
    have h1 := (binade_spec |q| habs).1
    rw [e] at h1
    exact (zpow_le_zpow_iff_right₀ (by norm_num : (1 : ℚ) < 2)).mp (le_trans h1 hq)
  have hk : 52 - E ≤ gridBits q := le_min (by omega) (by omega)
  have hr := abs_roundEven_sub_le (q * 2 ^ gridBits q)
  have hpos := two_zpow_pos (gridBits q)
  have e1 : fl q - q = ((roundEven (q * 2 ^ gridBits q) : ℚ) - q * 2 ^ gridBits q) /
      2 ^ gridBits q := by
    unfold fl; field_simp; ring
  rw [e1, abs_div, abs_of_pos hpos, div_le_iff₀ hpos]
  calc |(roundEven (q * 2 ^ gridBits q) : ℚ) - q * 2 ^ gridBits q| ≤ 1 / 2 := hr
    _ = 2 ^ (-(gridBits q) - 1) * 2 ^ gridBits q := by
        rw [← zpow_add₀ (by norm_num),
          show -(gridBits q) - 1 + gridBits q = -1 by ring]
        norm_num
    _ ≤ 2 ^ (E - 53) * 2 ^ gridBits q := by
        apply mul_le_mul_of_nonneg_right _ (le_of_lt hpos)
        exact zpow_le_zpow_right₀ (by norm_num) (by omega)

/-- A binary64 number is below the rounded constant exactly when it is below
the constant itself, for a constant that is rounded upwards or not at all. -/
theorem lt_fl_iff (r c : ℚ) (hc0 : 0 ≤ c) (hr : fl r = r) (hc : c ≤ fl c) :
    r < fl c ↔ r < c := by
  constructor
  · intro h
    by_contra hn
    have := fl_mono hc0 (not_lt.mp hn)
    rw [hr] at this
    linarith
  · intro h
    linarith

theorem fl_consts :
    fl 0.75 = 0.75 ∧ (0.45 : ℚ) ≤ fl 0.45 ∧ fl 0.5 = 0.5 ∧ 0 ≤ fl 0.35 ∧ fl 0.35 ≤ 0.35 ∧
    fl 18 = 18 ∧ fl 28 = 28 ∧ fl 46 = 46 ∧ fl 30 = 30 ∧ fl 60 = 60 ∧ fl 55 = 55 ∧
    fl 85 = 85 ∧ fl 50 = 50 ∧ fl 40 = 40 ∧ fl 90 = 90 ∧ fl 20 = 20 ∧ fl 48 = 48 := by
  decide!

/-- The horizontal position of a spawned avalanche. -/
theorem avalanche_x_bounds (gW : ℕ) (d : ℚ) (hW : gW < 2 ^ 31) (hd0 : 0 ≤ d) (hd1 : d < 1) :
    0.5 * (gW : ℚ) ≤ fl (fl ((gW : ℚ) * fl 0.5) + fl (fl (d * (gW : ℚ)) * fl 0.35)) ∧
    fl (fl ((gW : ℚ) * fl 0.5) + fl (fl (d * (gW : ℚ)) * fl 0.35)) ≤
      fl ((gW : ℚ) * 0.5 + fl ((gW : ℚ) * fl 0.35)) ∧
    fl ((gW : ℚ) * 0.5 + fl ((gW : ℚ) * fl 0.35)) ≤ 0.85 * (gW : ℚ) + 1 / 2 ^ 20 := by
  obtain ⟨-, -, c5, c0, c1, -⟩ := fl_consts
  have hW53 : gW < 2 ^ 53 := lt_trans hW (by norm_num)
  have hg0 : (0 : ℚ) ≤ gW := Nat.cast_nonneg gW
  have hgq : (gW : ℚ) < 2 ^ 31 := by exact_mod_cast hW
  have hhalf : fl ((gW : ℚ) * 0.5) = (gW : ℚ) * 0.5 := fl_half_natCast gW hW53
  have hdg0 : 0 ≤ d * (gW : ℚ) := mul_nonneg hd0 hg0
  have hdg1 : fl (d * (gW : ℚ)) ≤ gW := by
    have := fl_mono hdg0 (show d * (gW : ℚ) ≤ gW by nlinarith)
    rwa [fl_natCast gW hW53] at this
  have ht0 : 0 ≤ fl (d * (gW : ℚ)) * fl 0.35 := mul_nonneg (fl_nonneg hdg0) c0
  have ht1 : fl (fl (d * (gW : ℚ)) * fl 0.35) ≤ fl ((gW : ℚ) * fl 0.35) :=
    fl_mono ht0 (mul_le_mul_of_nonneg_right hdg1 c0)
  have hgc0 : 0 ≤ (gW : ℚ) * fl 0.35 := mul_nonneg hg0 c0
  rw [c5, hhalf]
  refine ⟨?_, ?_, ?_⟩
  · have := fl_mono (show 0 ≤ (gW : ℚ) * 0.5 by positivity)
      (show (gW : ℚ) * 0.5 ≤ (gW : ℚ) * 0.5 + fl (fl (d * (gW : ℚ)) * fl 0.35) by
        linarith [fl_nonneg ht0])
    rw [hhalf] at this
    linarith
  · apply fl_mono (by linarith [fl_nonneg ht0, show 0 ≤ (gW : ℚ) * 0.5 by positivity])
    linarith
  · have e1 := fl_error ((gW : ℚ) * fl 0.35) 31 (by norm_num) (by
      rw [abs_of_nonneg hgc0]
      have : (gW : ℚ) * fl 0.35 ≤ (gW : ℚ) * 1 :=
        mul_le_mul_of_nonneg_left (by linarith) hg0
      have h31 : (2 : ℚ) ^ (31 : ℤ) = 2 ^ 31 := by norm_num
      linarith)
    have b1 : fl ((gW : ℚ) * fl 0.35) ≤ 0.35 * (gW : ℚ) + 1 / 2 ^ 22 := by
      have := (abs_le.mp e1).2
      have h22 : (2 : ℚ) ^ ((31 : ℤ) - 53) = 1 / 2 ^ 22 := by norm_num
      have : (gW : ℚ) * fl 0.35 ≤ (gW : ℚ) * 0.35 := mul_le_mul_of_nonneg_left c1 hg0
      linarith
    have hs0 : 0 ≤ (gW : ℚ) * 0.5 + fl ((gW : ℚ) * fl 0.35) := by
      linarith [fl_nonneg hgc0, show 0 ≤ (gW : ℚ) * 0.5 by positivity]
    have hgq1 : (gW : ℚ) ≤ 2 ^ 31 - 1 := by
      have : gW + 1 ≤ 2 ^ 31 := hW
      have : ((gW + 1 : ℕ) : ℚ) ≤ ((2 ^ 31 : ℕ) : ℚ) := by exact_mod_cast this
      push_cast at this
      linarith
    have e2 := fl_error ((gW : ℚ) * 0.5 + fl ((gW : ℚ) * fl 0.35)) 31 (by norm_num) (by
      rw [abs_of_nonneg hs0]
      have h31 : (2 : ℚ) ^ (31 : ℤ) = 2 ^ 31 := by norm_num
      rw [h31]
      norm_num at b1 hgq1 ⊢
      linarith)
    have := (abs_le.mp e2).2
    have h22 : (2 : ℚ) ^ ((31 : ℤ) - 53) = 1 / 2 ^ 22 := by norm_num
    rw [h22] at this
    norm_num at this b1 ⊢
    linarith

/-! ## The collision test in binary64 -/

theorem hitbox_consts :
    |fl (PLAYER_W * fl 0.38) - 19.76| ≤ 1 / 2 ^ 40 ∧
    |fl (PLAYER_W * fl 0.7) - 36.4| ≤ 1 / 2 ^ 40 ∧
    |fl (PLAYER_W * fl 0.12) - 6.24| ≤ 1 / 2 ^ 40 ∧
    |fl (PLAYER_H * fl 0.88) - 56.32| ≤ 1 / 2 ^ 40 := by
  decide!

/-- A rounded sum or difference of two numbers of size at most `2 ^ 20 + 64`. -/
theorem fl_error_small (q : ℚ) (hq : |q| ≤ 2 ^ 21) : |fl q - q| ≤ 1 / 2 ^ 32 := by
  have := fl_error q 21 (by norm_num)
    (by rw [show (2 : ℚ) ^ (21 : ℤ) = 2 ^ 21 by norm_num]; exact hq)
  have e : (2 : ℚ) ^ ((21 : ℤ) - 53) = 1 / 2 ^ 32 := by norm_num
  rwa [e] at this

theorem hitbox_edges_close (x : ℚ) (hx : |x| ≤ 2 ^ 20) :
    |hitboxRight x - (x + 16.64)| ≤ 1 / 2 ^ 30 ∧ |hitboxLeft x - (x - 13.52)| ≤ 1 / 2 ^ 30 ∧
    |hitboxBottom x - (x + 56.32)| ≤ 1 / 2 ^ 30 := by
  obtain ⟨cA, cB, cC, cD⟩ := hitbox_consts
  obtain ⟨x1, x2⟩ := abs_le.mp hx
  obtain ⟨a1, a2⟩ := abs_le.mp cA
  obtain ⟨b1, b2⟩ := abs_le.mp cB
  obtain ⟨c1, c2⟩ := abs_le.mp cC
  obtain ⟨d1, d2⟩ := abs_le.mp cD
  have hpx := fl_error_small (x - fl (PLAYER_W * fl 0.38))
    (by rw [abs_le]; norm_num at x1 x2 a1 a2 ⊢; constructor <;> linarith)
  obtain ⟨p1, p2⟩ := abs_le.mp hpx
  have hR := fl_error_small (fl (x - fl (PLAYER_W * fl 0.38)) + fl (PLAYER_W * fl 0.7))
    (by rw [abs_le]; norm_num at x1 x2 a1 a2 b1 b2 p1 p2 ⊢; constructor <;> linarith)
  have hL := fl_error_small (fl (x - fl (PLAYER_W * fl 0.38)) + fl (PLAYER_W * fl 0.12))
    (by rw [abs_le]; norm_num at x1 x2 a1 a2 c1 c2 p1 p2 ⊢; constructor <;> linarith)
  have hB := fl_error_small (x + fl (PLAYER_H * fl 0.88))
    (by rw [abs_le]; norm_num at x1 x2 d1 d2 ⊢; constructor <;> linarith)
  obtain ⟨r1, r2⟩ := abs_le.mp hR
  obtain ⟨l1, l2⟩ := abs_le.mp hL
  obtain ⟨e1, e2⟩ := abs_le.mp hB
  unfold hitboxRight hitboxLeft hitboxBottom
  refine ⟨?_, ?_, ?_⟩ <;> rw [abs_le] <;>
    norm_num at x1 x2 a1 a2 b1 b2 c1 c2 d1 d2 p1 p2 r1 r2 l1 l2 e1 e2 ⊢ <;>
    constructor <;> linarith

/-- C8 (amended): the verdict of the overlap test as the source computes it in
binary64 depends only on the character's position and the obstacle's box, and
is true exactly when the four strict comparisons hold between the computed
edges `(x - 52 * 0.38) + 52 * 0.7`, `(x - 52 * 0.38) + 52 * 0.12`,
`y + 64 * 0.88` (every operation rounded) and `ox`, `ox + w`, `oy`, `oy + h`; a
computed edge that equals the facing obstacle edge is not a collision. For
coordinates of size at most `2 ^ 20` the computed edges are within `2 ^ (-30)`
of `x + 16.64`, `x - 13.52` and `y + 56.32`, so the verdict is that of the four
real inequalities whenever each of them holds, or one of them fails, by more
than `2 ^ (-29)`. -/
theorem hitD_iff_strict_overlap (g : ℚ) (p : Player) (o : Obstacle) :
    (hitD g p o = true ↔
      (hitboxRight p.x > o.x ∧ hitboxLeft p.x < fl (o.x + o.w) ∧
        hitboxBottom p.y > boxTopD g o ∧ p.y < fl (boxTopD g o + o.h))) ∧
    (hitboxRight p.x = o.x → hitD g p o = false) ∧
    (hitboxLeft p.x = fl (o.x + o.w) → hitD g p o = false) ∧
    (hitboxBottom p.y = boxTopD g o → hitD g p o = false) ∧
    (p.y = fl (boxTopD g o + o.h) → hitD g p o = false) ∧
    (∀ (g2 : ℚ) (p2 : Player) (o2 : Obstacle), p2.x = p.x → p2.y = p.y → o2.x = o.x →
      boxTopD g2 o2 = boxTopD g o → o2.w = o.w → o2.h = o.h → hitD g2 p2 o2 = hitD g p o) ∧
    boxTopD g o = (if o.falling = true then o.y else fl (g - o.h)) ∧
    (|p.x| ≤ 2 ^ 20 → |p.y| ≤ 2 ^ 20 → |o.x + o.w| ≤ 2 ^ 20 → |boxTopD g o + o.h| ≤ 2 ^ 20 →
      (|hitboxRight p.x - (p.x + 0.32 * 52)| ≤ 1 / 2 ^ 30 ∧
        |hitboxLeft p.x - (p.x - 0.26 * 52)| ≤ 1 / 2 ^ 30 ∧
        |hitboxBottom p.y - (p.y + 0.88 * 64)| ≤ 1 / 2 ^ 30) ∧
      ((p.x + 0.32 * 52 > o.x + 1 / 2 ^ 29 ∧ p.x - 0.26 * 52 + 1 / 2 ^ 29 < o.x + o.w ∧
          p.y + 0.88 * 64 > boxTopD g o + 1 / 2 ^ 29 ∧
          p.y + 1 / 2 ^ 29 < boxTopD g o + o.h) → hitD g p o = true) ∧
      ((p.x + 0.32 * 52 + 1 / 2 ^ 29 < o.x ∨ p.x - 0.26 * 52 > o.x + o.w + 1 / 2 ^ 29 ∨
          p.y + 0.88 * 64 + 1 / 2 ^ 29 < boxTopD g o ∨
          p.y > boxTopD g o + o.h + 1 / 2 ^ 29) → hitD g p o = false)) := by
  have key : ∀ (g1 : ℚ) (p1 : Player) (o1 : Obstacle), hitD g1 p1 o1 = true ↔
      (hitboxRight p1.x > o1.x ∧ hitboxLeft p1.x < fl (o1.x + o1.w) ∧
        hitboxBottom p1.y > boxTopD g1 o1 ∧ p1.y < fl (boxTopD g1 o1 + o1.h)) := by
    intro g1 p1 o1
    simp only [hitD, decide_eq_true_eq]
  have nohit : ∀ {g1 : ℚ} {p1 : Player} {o1 : Obstacle},
      ¬ (hitboxRight p1.x > o1.x ∧ hitboxLeft p1.x < fl (o1.x + o1.w) ∧
        hitboxBottom p1.y > boxTopD g1 o1 ∧ p1.y < fl (boxTopD g1 o1 + o1.h)) →
      hitD g1 p1 o1 = false := by
    intro g1 p1 o1 hn
    cases hh : hitD g1 p1 o1 with
    | false => rfl
    | true => exact absurd ((key g1 p1 o1).mp hh) hn
  refine ⟨key g p o, ?_, ?_, ?_, ?_, ?_, rfl, ?_⟩
  · intro he; apply nohit; rintro ⟨a, -, -, -⟩; linarith
  · intro he; apply nohit; rintro ⟨-, b, -, -⟩; linarith
  · intro he; apply nohit; rintro ⟨-, -, c, -⟩; linarith
  · intro he; apply nohit; rintro ⟨-, -, -, d⟩; linarith
  · intro g2 p2 o2 e1 e2 e3 e4 e5 e6
    have k2 := key g2 p2 o2
    rw [e1, e2, e3, e4, e5, e6] at k2
    cases hh : hitD g p o with
    | true => exact k2.mpr ((key g p o).mp hh)
    | false =>
      cases hh2 : hitD g2 p2 o2 with
      | false => rfl
      | true => rw [(key g p o).mpr (k2.mp hh2)] at hh; exact absurd hh (by simp)
  · intro hx hy hr hb
    obtain ⟨tR, tL, -⟩ := hitbox_edges_close p.x hx
    obtain ⟨-, -, tB⟩ := hitbox_edges_close p.y hy
    have le21 : (2 : ℚ) ^ 20 ≤ 2 ^ 21 := by norm_num
    have tr := fl_error_small (o.x + o.w) (le_trans hr le21)
    have tb := fl_error_small (boxTopD g o + o.h) (le_trans hb le21)
    obtain ⟨r1, r2⟩ := abs_le.mp tR
    obtain ⟨l1, l2⟩ := abs_le.mp tL
    obtain ⟨b1, b2⟩ := abs_le.mp tB
    obtain ⟨s1, s2⟩ := abs_le.mp tr
    obtain ⟨u1, u2⟩ := abs_le.mp tb
    have n1 : (0.32 : ℚ) * 52 = 16.64 := by norm_num
    have n2 : (0.26 : ℚ) * 52 = 13.52 := by norm_num
    have n3 : (0.88 : ℚ) * 64 = 56.32 := by norm_num
    rw [n1, n2, n3]
    refine ⟨⟨tR, tL, tB⟩, ?_, ?_⟩
    · rintro ⟨m1, m2, m3, m4⟩
      rw [key]
      norm_num at r1 r2 l1 l2 b1 b2 s1 s2 u1 u2 m1 m2 m3 m4
      refine ⟨?_, ?_, ?_, ?_⟩ <;> linarith
    · intro hm
      apply nohit
      rintro ⟨a, b, c, d⟩
      norm_num at r1 r2 l1 l2 b1 b2 s1 s2 u1 u2 hm
      rcases hm with m | m | m | m <;> linarith

/-- Witness of C8 (amended): a block one pixel inside, one pixel outside, and
exactly at the computed right edge of the character's box. -/
theorem hitD_iff_strict_overlap_witness :
    hitD 468 ⟨144, 404, 0, true⟩ ⟨ObstacleType.block, 160, 30, 40, 0, 0, false⟩ = true ∧
    hitD 468 ⟨144, 404, 0, true⟩ ⟨ObstacleType.block, 161, 30, 40, 0, 0, false⟩ = false ∧
    hitD 468 ⟨144, 404, 0, true⟩
      ⟨ObstacleType.block, hitboxRight 144, 30, 40, 0, 0, false⟩ = false :=
  ⟨((hitD_iff_strict_overlap 468 ⟨144, 404, 0, true⟩
      ⟨ObstacleType.block, 160, 30, 40, 0, 0, false⟩).2.2.2.2.2.2.2
      (by norm_num) (by norm_num) (by norm_num) (by decide!)).2.1
      ⟨by norm_num, by norm_num, by decide!, by decide!⟩,
    ((hitD_iff_strict_overlap 468 ⟨144, 404, 0, true⟩
      ⟨ObstacleType.block, 161, 30, 40, 0, 0, false⟩).2.2.2.2.2.2.2
      (by norm_num) (by norm_num) (by norm_num) (by decide!)).2.2
      (Or.inl (by norm_num)),
    (hitD_iff_strict_overlap 468 ⟨144, 404, 0, true⟩
      ⟨ObstacleType.block, hitboxRight 144, 30, 40, 0, 0, false⟩).2.1 rfl⟩

/-- C8 (counterexample): on an 800 x 600 canvas the character stands at
`x = 144`, `y = 404`. For a grounded block of height 40 whose left edge is the
binary64 number nearest 160.64, the four inequalities of the claim hold
(`144 + 0.32 * 52 = 160.64` is larger than that number), but the source computes
the right edge `(144 - 52 * 0.38) + 52 * 0.7` as exactly that number and
declares no hit. -/
theorem hitD_differs_at_edge :
    fl (800 * fl 0.18) = 144 ∧ fl (fl (600 * fl 0.78) - 64) = 404 ∧ fl (600 * fl 0.78) = 468 ∧
    fl 160.64 = hitboxRight 144 ∧
    ((144 : ℚ) + 0.32 * 52 > fl 160.64 ∧ (144 : ℚ) - 0.26 * 52 < fl 160.64 + 30 ∧
      (404 : ℚ) + 0.88 * 64 > 468 - 40 ∧ (404 : ℚ) < 468 - 40 + 40) ∧
    hitD 468 ⟨144, 404, 0, true⟩ ⟨ObstacleType.block, fl 160.64, 30, 40, 0, 0, false⟩ = false := by
  decide!

/-! ## The obstacle generator in binary64 -/

/-- C13 (amended): on a canvas whose width is an integer below `2 ^ 31`, for
binary64 draws in `[0, 1)`, `spawnObstacle` as the source computes it appends
exactly one obstacle and changes nothing else: a block for `roll < 0.45` and a
spire for `0.45 ≤ roll < 0.75`, both at `x = gW + 40` with `falling = false`
(block width in `[28, 46]`, block height in `[30, 60]`, spire width 18, spire
height in `[55, 85]`); an avalanche for `roll ≥ 0.75`, with `y = -60`, `vy = 0`,
`falling = true`, width in `[50, 90]`, height in `[28, 48]` and `x` between
`0.5 gW` and the rounded sum `gW * 0.5 + gW * 0.35`, which is at most
`0.85 gW + 2 ^ (-20)`. -/
theorem spawnObstacleD_shapes (gW : ℕ) (r : Draws) (s : State) (hW : gW < 2 ^ 31)
    (hr : r.valid) (hd : r.isDouble) :
    ∃ o, spawnObstacleD gW r s = { s with obstacles := s.obstacles ++ [o] } ∧
      (r.roll < 0.45 →
        o.type = ObstacleType.block ∧ o.x = gW + 40 ∧ o.falling = false ∧
        28 ≤ o.w ∧ o.w ≤ 46 ∧ 30 ≤ o.h ∧ o.h ≤ 60) ∧
      (0.45 ≤ r.roll → r.roll < 0.75 →
        o.type = ObstacleType.spire ∧ o.x = gW + 40 ∧ o.falling = false ∧
        o.w = 18 ∧ 55 ≤ o.h ∧ o.h ≤ 85) ∧
      (0.75 ≤ r.roll →
        o.type = ObstacleType.avalanche ∧ o.y = -60 ∧ o.vy = 0 ∧ o.falling = true ∧
        50 ≤ o.w ∧ o.w ≤ 90 ∧ 28 ≤ o.h ∧ o.h ≤ 48 ∧
        0.5 * (gW : ℚ) ≤ o.x ∧ o.x ≤ fl ((gW : ℚ) * 0.5 + fl ((gW : ℚ) * fl 0.35)) ∧
        o.x ≤ 0.85 * (gW : ℚ) + 1 / 2 ^ 20) := by
  obtain ⟨⟨r0, -⟩, ⟨a1, b1⟩, ⟨a2, b2⟩, ⟨a3, b3⟩⟩ := hr
  obtain ⟨k75, k45, -, -, -, f18, f28, f46, f30, f60, f55, f85, f50, f40, f90, f20, f48⟩ :=
    fl_consts
  have t45 : r.roll < fl 0.45 ↔ r.roll < 0.45 := lt_fl_iff _ _ (by norm_num) hd.1 k45
  have hx : fl ((gW : ℚ) + 40) = (gW : ℚ) + 40 := by
    have := fl_natCast (gW + 40) (by
      have : (2 : ℕ) ^ 31 + 40 < 2 ^ 53 := by norm_num
      omega)
    push_cast at this
    exact this
  simp only [spawnObstacleD, t45, k75]
  split_ifs with c1 c2
  · refine ⟨_, rfl, fun _ => ?_, fun c => ?_, fun c => ?_⟩
    · have hw := fl_affine_bounds 28 18 r.d1 (by norm_num) (by norm_num) a1 b1 f28 f18
        (by norm_num; exact f46)
      have hh := fl_affine_bounds 30 30 r.d2 (by norm_num) (by norm_num) a2 b2 f30 f30
        (by norm_num; exact f60)
      norm_num at hw hh
      exact ⟨rfl, hx, rfl, hw.1, hw.2, hh.1, hh.2⟩
    · exact absurd c1 (not_lt.mpr c)
    · exfalso; linarith
  · refine ⟨_, rfl, fun c => absurd c c1, fun _ _ => ?_, fun c => ?_⟩
    · have hh := fl_affine_bounds 55 30 r.d1 (by norm_num) (by norm_num) a1 b1 f55 f30
        (by norm_num; exact f85)
      norm_num at hh
      exact ⟨rfl, hx, rfl, rfl, hh.1, hh.2⟩
    · exact absurd c2 (not_lt.mpr c)
  · refine ⟨_, rfl, fun c => absurd c c1, fun _ c => absurd c c2, fun _ => ?_⟩
    have hw := fl_affine_bounds 50 40 r.d2 (by norm_num) (by norm_num) a2 b2 f50 f40
      (by norm_num; exact f90)
    have hh := fl_affine_bounds 28 20 r.d3 (by norm_num) (by norm_num) a3 b3 f28 f20
      (by norm_num; exact f48)
    obtain ⟨x1, x2, x3⟩ := avalanche_x_bounds gW r.d1 hW a1 b1
    norm_num at hw hh
    exact ⟨rfl, rfl, rfl, rfl, hw.1, hw.2, hh.1, hh.2, x1, x2, le_trans x2 x3⟩

/-- Witness of C13 (amended): the draws `edgeDraws` on a canvas 1280 wide. -/
theorem spawnObstacleD_shapes_witness :
    edgeDraws.valid ∧ edgeDraws.isDouble ∧
    ∃ o, spawnObstacleD ((1280 : ℕ) : ℚ) edgeDraws (initState 1280 600) =
      { initState 1280 600 with obstacles := (initState 1280 600).obstacles ++ [o] } ∧
      (edgeDraws.roll < 0.45 → o.type = ObstacleType.block ∧ o.w ≤ 46) :=
  ⟨by norm_num [Draws.valid, edgeDraws, belowOne], by decide!,
    (spawnObstacleD_shapes 1280 edgeDraws (initState 1280 600) (by norm_num)
      (by norm_num [Draws.valid, edgeDraws, belowOne]) (by decide!)).imp
      (fun _ ho => ⟨ho.1, fun hc => ⟨(ho.2.1 hc).1, (ho.2.1 hc).2.2.2.2.1⟩⟩)⟩

/-- C13 (counterexample): with the dimension draws at `1 - 2 ^ (-52)`, a
binary64 number below 1, on a canvas 1280 wide, the source creates a block of
width 46, a spire of height 85, and an avalanche of width 90 and height 48 at
`x = 1088 = 0.85 * 1280`: upper ends that the half-open ranges exclude. -/
theorem spawnObstacleD_upper_ends_attained :
    edgeDraws.valid ∧ edgeDraws.isDouble ∧
    (spawnObstacleD 1280 edgeDraws (initState 1280 600)).obstacles.map
      (fun o => (o.type, o.w)) = [(ObstacleType.block, 46)] ∧
    (spawnObstacleD 1280 ⟨0.5, belowOne, belowOne, belowOne⟩
      (initState 1280 600)).obstacles.map
      (fun o => (o.type, o.h)) = [(ObstacleType.spire, 85)] ∧
    (spawnObstacleD 1280 ⟨0.75, belowOne, belowOne, belowOne⟩ (initState 1280 600)).obstacles =
      [⟨ObstacleType.avalanche, 1088, 90, 48, -60, 0, true⟩] ∧
    (0.85 : ℚ) * 1280 = 1088 := by
  refine ⟨by norm_num [Draws.valid, edgeDraws, belowOne], by decide!, by decide!, by decide!,
    by decide!, by norm_num⟩

end Game
